import Mathlib

/-!
Verification of the website source-acquisition pipeline of the
Webpage-inspector repository (src/services/downloader.ts,
src/services/assetDiscovery.ts, src/services/aiService.ts).

The TypeScript sources are shallowly embedded: pure logic is translated
to executable Lean functions; the browser platform primitives that the
code calls (`fetch`, `new URL`, `DOMParser`, `acorn.parse`, web workers)
are modelled as an explicit environment (`Env`) or, for the WHATWG URL
constructor, as a small executable model covering the http(s) behaviour
the pipeline exercises.  The V1 sequential crawler is embedded as a
fuel-indexed deterministic loop; the V2 worker-pool crawler is embedded
as a labelled transition system over the main thread's event loop.
-/

set_option maxHeartbeats 1000000

/-! ## String helpers (models of the JS string operations used) -/

/-- `listStartsWith hay needle`: `needle` is a prefix of `hay` (on char lists). -/
def listStartsWith : List Char → List Char → Bool
  | _, [] => true
  | [], _ :: _ => false
  | h :: hs, n :: ns => h == n && listStartsWith hs ns

/-- `listContainsSub hay needle`: `needle` occurs as a contiguous run of `hay`.
Model of JavaScript `String.prototype.includes`. -/
def listContainsSub : List Char → List Char → Bool
  | hay, needle =>
    listStartsWith hay needle ||
      match hay with
      | [] => false
      | _ :: rest => listContainsSub rest needle

/-- String containment, model of JS `includes`. -/
def strContains (hay needle : String) : Bool :=
  listContainsSub hay.data needle.data

/-- Model of JS `startsWith` (kernel-computable, unlike `String.startsWith`). -/
def strStartsWith (s pre : String) : Bool :=
  listStartsWith s.data pre.data

/-- Model of JS `endsWith`. -/
def strEndsWithSfx (s sfx : String) : Bool :=
  listStartsWith s.data.reverse sfx.data.reverse

/-- Drop the first `n` characters of a string. -/
def strDrop (s : String) (n : Nat) : String :=
  String.mk (s.data.drop n)

/-- Lower-casing, model of JS `toLowerCase` on ASCII. -/
def strToLower (s : String) : String :=
  String.mk (s.data.map Char.toLower)

/-- JS whitespace for `trim`. -/
def jsWhitespace (c : Char) : Bool :=
  c == ' ' || c == '\t' || c == '\n' || c == '\r'

/-- Model of JS `trim`. -/
def strTrim (s : String) : String :=
  String.mk (((s.data.dropWhile jsWhitespace).reverse.dropWhile jsWhitespace).reverse)

/-- Split a character list on a single-character separator (every occurrence;
the result always has one more part than there are separators). -/
def splitOnChar (sep : Char) : List Char → List (List Char)
  | [] => [[]]
  | c :: cs =>
    if c == sep then [] :: splitOnChar sep cs
    else
      match splitOnChar sep cs with
      | [] => [[c]]
      | h :: t => (c :: h) :: t

/-- Join strings with a separator (inverse of splitting). -/
def joinSep (sep : String) : List String → String
  | [] => ""
  | [s] => s
  | s :: rest => s ++ sep ++ joinSep sep rest

/-- The characters before the first occurrence of `sep` (the whole list when
`sep` does not occur): JS `s.split(sep)[0]` for nonempty `sep`. -/
def beforeFirstL (sep : List Char) : List Char → List Char
  | [] => []
  | c :: cs =>
    if listStartsWith (c :: cs) sep then []
    else c :: beforeFirstL sep cs

/-- JS `s.split(sep)[0]` for a nonempty string separator. -/
def strBeforeFirst (s sep : String) : String :=
  String.mk (beforeFirstL sep.data s.data)

/-- Worker loop of first-occurrence-preserving deduplication; `seen` is the
set of values already emitted. -/
def dedupFirstAux (seen : List String) : List String → List String
  | [] => []
  | x :: xs =>
    if x ∈ seen then dedupFirstAux seen xs
    else x :: dedupFirstAux (x :: seen) xs

/-- First-occurrence-preserving deduplication, the model of collecting into a
JS `Set` and reading it back with `Array.from`. -/
def dedupFirst (l : List String) : List String :=
  dedupFirstAux [] l

/-! ## Model of the WHATWG `URL` platform primitive

`new URL(input)` / `new URL(input, base)` as used by the pipeline, restricted
to `http:`/`https:` URLs (all URLs the crawler ever constructs).  A URL is
scheme, host, a normalized path beginning with `/`, a query (empty or
beginning with `?`) and a fragment (empty or beginning with `#`). -/

structure UrlParts where
  scheme : String
  host : String
  path : String
  query : String
  frag : String
deriving DecidableEq, Repr, Inhabited

/-- `href`: serialization of a parsed URL, concatenating its components. -/
def UrlParts.href (p : UrlParts) : String :=
  p.scheme ++ "://" ++ p.host ++ p.path ++ p.query ++ p.frag

/-- Dot-segment normalization of a path's segments (`.` dropped, `..` pops). -/
def normSegs : List String → List String → List String
  | stack, [] => stack
  | stack, "." :: rest => normSegs stack rest
  | stack, ".." :: rest => normSegs stack.dropLast rest
  | stack, s :: rest => normSegs (stack ++ [s]) rest

/-- Normalize a raw path (which must begin with `/`) by removing dot segments. -/
def normalizePath (raw : String) : String :=
  "/" ++ joinSep "/" (normSegs [] ((splitOnChar '/' (raw.data.drop 1)).map String.mk))

/-- Split a path-query-fragment suffix into its raw path, query and fragment. -/
def splitPathQueryFrag (s : String) : String × String × String :=
  match splitOnChar '#' s.data with
  | [] => ("", "", "")
  | pq :: fr =>
    let frag := if fr.isEmpty then "" else "#" ++ joinSep "#" (fr.map String.mk)
    match splitOnChar '?' pq with
    | [] => ("", "", frag)
    | p :: q =>
      let query := if q.isEmpty then "" else "?" ++ joinSep "?" (q.map String.mk)
      (String.mk p, query, frag)

/-- Characters that make a hostname invalid in this model. -/
def badHostChar (c : Char) : Bool :=
  c == ' ' || c == '/' || c == '?' || c == '#'

/-- Parse the part of an absolute http(s) URL after the `scheme://` marker. -/
def parseAfterScheme (scheme rest : String) : Option UrlParts :=
  let hostLen := (rest.data.takeWhile (fun c => !badHostChar c)).length
  let host := String.mk (rest.data.take hostLen)
  let tail := String.mk (rest.data.drop hostLen)
  if host = "" then none
  else if strStartsWith tail "?" || strStartsWith tail "#" || tail == "" then
    let (q, f) :=
      if strStartsWith tail "#" then ("", tail)
      else
        match splitOnChar '#' tail.data with
        | [] => ("", "")
        | q :: fr =>
          (String.mk q, if fr.isEmpty then "" else "#" ++ joinSep "#" (fr.map String.mk))
    some ⟨scheme, host, "/", q, f⟩
  else if strStartsWith tail "/" then
    let (p, q, f) := splitPathQueryFrag tail
    some ⟨scheme, host, normalizePath p, q, f⟩
  else none

/-- Model of `new URL(s)` for absolute http(s) URLs; `none` models the
`TypeError` the constructor throws on anything else. -/
def urlParse (s : String) : Option UrlParts :=
  if strStartsWith s "https://" then parseAfterScheme "https" (strDrop s 8)
  else if strStartsWith s "http://" then parseAfterScheme "http" (strDrop s 7)
  else none

/-- Directory of a path: everything up to and including the last `/`. -/
def pathDirectory (p : String) : String :=
  String.mk (p.data.reverse.dropWhile (fun c => !(c == '/'))).reverse

/-- Model of `new URL(ref, base).href`: absolute refs stand alone,
`//`-refs adopt the base scheme, `/`-refs replace the base path, and other
refs are merged against the base path's directory, with dot-segment
normalization throughout.  `none` models the constructor throwing. -/
def urlResolve (ref base : String) : Option String :=
  match urlParse ref with
  | some p => some p.href
  | none =>
    if strStartsWith ref "//" then
      match urlParse base with
      | none => none
      | some b => (urlParse (b.scheme ++ ":" ++ ref)).map UrlParts.href
    else
      match urlParse base with
      | none => none
      | some b =>
        if ref == "" then some b.href
        else if strStartsWith ref "/" then
          let (p, q, f) := splitPathQueryFrag ref
          some (UrlParts.href ⟨b.scheme, b.host, normalizePath p, q, f⟩)
        else if strStartsWith ref "?" then
          let (q, f) :=
            match splitOnChar '#' ref.data with
            | [] => ("", "")
            | q :: fr =>
              (String.mk q,
                if fr.isEmpty then "" else "#" ++ joinSep "#" (fr.map String.mk))
          some (UrlParts.href ⟨b.scheme, b.host, b.path, q, f⟩)
        else if strStartsWith ref "#" then
          some (UrlParts.href ⟨b.scheme, b.host, b.path, b.query, ref⟩)
        else
          let (p, q, f) := splitPathQueryFrag ref
          some (UrlParts.href ⟨b.scheme, b.host,
            normalizePath (pathDirectory b.path ++ p), q, f⟩)

/-! ## Transport layer: responses, proxy outcomes, the environment -/

/-- A fetched HTTP response as the pipeline observes it: status line data,
content type header and body bytes (modelled as a string). -/
structure Resp where
  status : Nat
  statusText : String
  contentType : String
  body : String
deriving DecidableEq, Repr, Inhabited

/-- `Response.ok`: status in the inclusive range 200–299. -/
def respOkB (r : Resp) : Bool :=
  200 ≤ r.status && r.status < 300

/-- Outcome of one `fetch(proxiedUrl, options)` at a given proxy: either the
connection fails (the promise rejects) or a response arrives. -/
inductive ProxyOutcome where
  | connFail : ProxyOutcome
  | resp (r : Resp) : ProxyOutcome
deriving DecidableEq, Repr, Inhabited

/-- The ambient environment: every platform call the pipeline makes whose
result is not determined by the code itself.
* `proxy url i` — outcome of fetching `url` through the `i`-th proxy;
* `discover ct body base` — result of `findAllResources` (the resource
  extractor; its HTML branch needs `DOMParser`, so the whole extractor is kept
  abstract at crawl level and studied separately for the JS AST claim);
* `links body base` — result of `findInternalLinksInHtml`;
* `cdnText url` — raw text completion of the AI collaborator in `findCdnUrl`
  (`.error` models the request rejecting);
* `direct url` — outcome of a plain, unproxied `fetch(url)`;
* `toDataUri body` — result of `blobToDataURI` (FileReader base64 encoding);
* `hw` — `navigator.hardwareConcurrency` (`0` models it being undefined). -/
structure Env where
  proxy : String → Nat → ProxyOutcome
  discover : String → String → String → List String
  links : String → String → List String
  cdnText : String → Except String String
  direct : String → Except String Resp
  toDataUri : String → String
  hw : Nat

/-- The ordered CORS proxy list of `downloader.ts`. -/
def PROXIES : List String :=
  [ "https://api.allorigins.win/raw?url=",
    "https://corsproxy.io/?",
    "https://api.codetabs.com/v1/proxy?quest=",
    "https://corsproxy.org/?",
    "https://thingproxy.freeboard.io/fetch/",
    "https://cors.eu.org/",
    "https://cors-anywhere.herokuapp.com/" ]

/-- Main-thread `fetchWithProxy` recursion, with the number of proxies still
available as structural fuel (`fuel = PROXIES.length - proxyIndex`, so fuel 0
is exactly the `proxyIndex >= PROXIES.length` guard): on a non-ok response or
a connection failure, advance to the next proxy; exhausting the list rejects
with `All proxies failed.`.  On success it returns the index of the proxy
that served the request together with the response. -/
def fetchWithProxyGo (env : Env) (url : String) : Nat → Nat → Except String (Nat × Resp)
  | 0, _ => Except.error "All proxies failed."
  | n + 1, proxyIndex =>
    match env.proxy url proxyIndex with
    | ProxyOutcome.connFail => fetchWithProxyGo env url n (proxyIndex + 1)
    | ProxyOutcome.resp r =>
      if respOkB r then Except.ok (proxyIndex, r)
      else fetchWithProxyGo env url n (proxyIndex + 1)

/-- `fetchWithProxy(url, options, proxyIndex)`. -/
def fetchWithProxyFrom (env : Env) (url : String) (proxyIndex : Nat) :
    Except String (Nat × Resp) :=
  fetchWithProxyGo env url (PROXIES.length - proxyIndex) proxyIndex

/-- `fetchWithProxy(url, options)` with the default starting index 0. -/
def fetchWithProxy (env : Env) (url : String) : Except String (Nat × Resp) :=
  fetchWithProxyFrom env url 0

/-- The worker-pool `fetchWithProxy` recursion (the `workerCode` string),
same fuel discipline: it advances only on a connection failure or a 5xx
response; any other response — 4xx client errors included — is returned
as-is, and exhaustion rejects with `All proxies failed for <url>`. -/
def workerFetchWithProxyGo (env : Env) (url : String) :
    Nat → Nat → Except String (Nat × Resp)
  | 0, _ => Except.error ("All proxies failed for " ++ url)
  | n + 1, proxyIndex =>
    match env.proxy url proxyIndex with
    | ProxyOutcome.connFail => workerFetchWithProxyGo env url n (proxyIndex + 1)
    | ProxyOutcome.resp r =>
      if 500 ≤ r.status && r.status < 600 then
        workerFetchWithProxyGo env url n (proxyIndex + 1)
      else Except.ok (proxyIndex, r)

/-- The worker's proxy-fallback fetch from index 0. -/
def workerFetchWithProxy (env : Env) (url : String) : Except String (Nat × Resp) :=
  workerFetchWithProxyGo env url PROXIES.length 0

/-- `cachedFetch`.  Within one crawl pass every URL is requested at most once
(proved below as the dedup invariant) and the retry passes call it with
`forceFresh = true`, so the promise cache is behaviourally the identity and
the function reduces to the transport call. -/
def cachedFetch (env : Env) (url : String) : Except String (Nat × Resp) :=
  fetchWithProxy env url

/-- A per-proxy outcome on which the main-thread chain advances: connection
failure or any non-ok response. -/
def advanceOutcomeB : ProxyOutcome → Bool
  | ProxyOutcome.connFail => true
  | ProxyOutcome.resp r => !respOkB r

/-- A per-proxy outcome on which the two proxy-fallback variants are in
step: a connection failure, an ok response, or a 5xx response.  The two
variants differ exactly on the remaining outcomes (non-ok, non-5xx responses,
e.g. 404). -/
def alignedOutcomeB : ProxyOutcome → Bool
  | ProxyOutcome.connFail => true
  | ProxyOutcome.resp r => respOkB r || (500 ≤ r.status && r.status < 600)

/-! ## Concrete transport environments and claims C4, C5 -/

/-- A response with the given status and placeholder metadata. -/
def respWith (status : Nat) : Resp :=
  { status := status, statusText := "S" ++ toString status,
    contentType := "text/plain", body := "b" }

/-- Environment whose first two proxies return HTTP 500 and whose third
returns HTTP 200 (remaining proxies also 500; they are never reached). -/
def envThirdOk : Env :=
  { proxy := fun _ i =>
      if i = 2 then ProxyOutcome.resp (respWith 200) else ProxyOutcome.resp (respWith 500),
    discover := fun _ _ _ => [], links := fun _ _ => [],
    cdnText := fun _ => Except.error "unused", direct := fun _ => Except.error "unused",
    toDataUri := fun b => b, hw := 0 }

/-- Environment in which every proxy fails to connect for every URL. -/
def envAllConnFail : Env :=
  { proxy := fun _ _ => ProxyOutcome.connFail,
    discover := fun _ _ _ => [], links := fun _ _ => [],
    cdnText := fun _ => Except.error "unused", direct := fun _ => Except.error "unused",
    toDataUri := fun b => b, hw := 0 }

/-- Environment in which every proxy returns HTTP 404 for every URL. -/
def envAll404 : Env :=
  { proxy := fun _ _ => ProxyOutcome.resp (respWith 404),
    discover := fun _ _ _ => [], links := fun _ _ => [],
    cdnText := fun _ => Except.error "unused", direct := fun _ => Except.error "unused",
    toDataUri := fun b => b, hw := 0 }

/-! ## Resource Extractor: the JavaScript AST walk (assetDiscovery.ts)

`findResourcesInJsAst` parses with acorn (a platform extern) and walks every
node, collecting dynamic-import sources and URL-shaped string literals.  The
AST is embedded as a tree: `importExpr` is an `ImportExpression` node with
its `source` child, `lit` is a `Literal` node (string-valued or not), and a
generic node's object children are represented by `seq`/`leaf` nesting (the
walker's recursion visits exactly the same nodes). -/

/-- The extension alternatives of `POTENTIAL_ASSET_EXTENSIONS`. -/
def ASSET_EXTS : List String :=
  ["js", "css", "json", "xml", "png", "jpg", "jpeg", "gif", "webp", "svg",
   "woff", "woff2", "ttf", "eot", "mp4", "webm", "mp3", "ogg"]

/-- `POTENTIAL_ASSET_EXTENSIONS.test`: the string ends with a dot and one of
the known asset extensions, case-insensitively. -/
def assetExtTest (s : String) : Bool :=
  ASSET_EXTS.any (fun e => strEndsWithSfx (strToLower s) ("." ++ e))

/-- The third alternative `\/[^\/]` of `URL_LIKE_STRING_REGEX`: somewhere in
the string a `/` is followed by a character other than `/`. -/
def slashNonSlash : List Char → Bool
  | '/' :: c :: rest => (!(c == '/')) || slashNonSlash (c :: rest)
  | _ :: rest => slashNonSlash rest
  | [] => false

/-- `URL_LIKE_STRING_REGEX.test` (`/^(https?:)?\/\/|\.\.?\/|\/[^\/]/`).
Only the first alternative is anchored at the start; the `\.\.?\/` and
`\/[^\/]` alternatives match anywhere in the string. -/
def urlLikeTest (s : String) : Bool :=
  strStartsWith s "//" || strStartsWith s "http://" || strStartsWith s "https://" ||
    strContains s "./" || slashNonSlash s.data

/-- `addResource`: skip empty, `data:` and `blob:` references, resolve the
rest against the base URL, and silently drop unresolvable ones. -/
def addResourceL (url base : String) : List String :=
  if url == "" || strStartsWith url "data:" || strStartsWith url "blob:" then []
  else
    match urlResolve url base with
    | some href => [href]
    | none => []

/-- The acorn AST fragment the walker inspects. -/
inductive JsAst where
  | importExpr (source : JsAst)
  | lit (value : Option String)
  | seq (a b : JsAst)
  | leaf
deriving DecidableEq, Repr, Inhabited

/-- The recursive `walk` of `findResourcesInJsAst`: an `ImportExpression`
whose source is a string literal contributes that source; every string
literal passing the URL-shape and asset-extension tests (after trimming)
contributes its value; all children are visited. -/
def walkJs (baseUrl : String) : JsAst → List String
  | JsAst.importExpr source =>
    (match source with
     | JsAst.lit (some v) => addResourceL v baseUrl
     | _ => []) ++ walkJs baseUrl source
  | JsAst.lit (some v) =>
    let p := strTrim v
    if urlLikeTest p && assetExtTest p then addResourceL p baseUrl else []
  | JsAst.lit none => []
  | JsAst.seq a b => walkJs baseUrl a ++ walkJs baseUrl b
  | JsAst.leaf => []

/-- `findResourcesInJsAst` on a successfully parsed AST: the walk's
collected resources, deduplicated as by the `Set` it accumulates into.
(The acorn parse itself, its empty-input early return and the regex fallback
on parse failure concern inputs that do not parse and are outside this
claim's AST extraction.) -/
def findResourcesInJsAst (ast : JsAst) (baseUrl : String) : List String :=
  dedupFirst (walkJs baseUrl ast)

/-- All dynamic-import source strings of an AST (specification function for
the characterization of the walk). -/
def importSources : JsAst → List String
  | JsAst.importExpr source =>
    (match source with
     | JsAst.lit (some v) => [v]
     | _ => []) ++ importSources source
  | JsAst.lit _ => []
  | JsAst.seq a b => importSources a ++ importSources b
  | JsAst.leaf => []

/-- All string-literal values of an AST. -/
def stringLiterals : JsAst → List String
  | JsAst.importExpr source => stringLiterals source
  | JsAst.lit (some v) => [v]
  | JsAst.lit none => []
  | JsAst.seq a b => stringLiterals a ++ stringLiterals b
  | JsAst.leaf => []

/-- The path shapes the spec sentence claims are required of collected string
literals: *starts with* one of `//`, `http://`, `https://`, `./`, `../`, `/`.
Modelled from the spec's words, for comparison with the source's unanchored
`URL_LIKE_STRING_REGEX`. -/
def specClaimedPathShape (s : String) : Bool :=
  strStartsWith s "//" || strStartsWith s "http://" || strStartsWith s "https://" ||
    strStartsWith s "./" || strStartsWith s "../" || strStartsWith s "/"

/-- The AST of `import('./mod.js'); fetch('/api/data.json');`: a program node
with an import expression and a call whose argument is a string literal. -/
def c9ExampleAst : JsAst :=
  JsAst.seq (JsAst.importExpr (JsAst.lit (some "./mod.js")))
    (JsAst.seq (JsAst.seq JsAst.leaf (JsAst.lit (some "/api/data.json"))) JsAst.leaf)

/-! ## Network log entries, archive, path derivation (downloader.ts) -/

/-- A `NetworkLogEntry` (types.ts): per-resource network outcome. -/
structure LogEntry where
  url : String
  status : Nat
  statusText : String
  contentType : String
  initiator : String
  size : Nat
  isError : Bool
deriving DecidableEq, Repr, Inhabited

/-- Crawl-pass archive path (downloader.ts line 360 and the V2 analogue):
`new URL(url).pathname.substring(1) || 'index.html'`. -/
def relPathCrawl (p : UrlParts) : String :=
  if strDrop p.path 1 == "" then "index.html" else strDrop p.path 1

/-- Retry-pass archive path (downloader.ts lines 437 and 475):
`new URL(url).pathname.substring(1) || new URL(url).hostname + '.html'`. -/
def relPathRetry (p : UrlParts) : String :=
  if strDrop p.path 1 == "" then p.host ++ ".html" else strDrop p.path 1

/-- JS falsy-string defaulting `ct || dflt` for content-type headers. -/
def ctOr (ct dflt : String) : String :=
  if ct == "" then dflt else ct

/-- `contentType.includes('text') || ...('javascript') || ...('json')`. -/
def textLike (ct : String) : Bool :=
  strContains ct "text" || strContains ct "javascript" || strContains ct "json"

/-- Mutate the first log entry with the given URL in place (the
`networkLog.find(...)` / `findIndex(...)` + assignment pattern); no-op when
no entry matches. -/
def updateFirstLog (u : String) (f : LogEntry → LogEntry) : List LogEntry → List LogEntry
  | [] => []
  | e :: rest => if e.url == u then f e :: rest else e :: updateFirstLog u f rest

/-- `zip.file(path, content)`: record a write; the latest write at a path is
the file's content. -/
def zipPut (zip : List (String × String)) (path content : String) :
    List (String × String) :=
  zip ++ [(path, content)]

/-- `zip.file(path)` as a read: latest write wins. -/
def zipGet (zip : List (String × String)) (path : String) : Option String :=
  (zip.reverse.find? (fun e => e.1 == path)).map Prod.snd

/-- Union new links into the internal-links set, preserving insertion order
(`pageLinks.forEach(link => internalLinks.add(link))`). -/
def addLinks (links : List String) (cur : List String) : List String :=
  links.foldl (fun acc l => if l ∈ acc then acc else acc ++ [l]) cur

/-! ## `findCdnUrl` (aiService.ts) -/

/-- `failedUrl.split('/').pop() || ''`. -/
def fileNameOf (failedUrl : String) : String :=
  (((splitOnChar '/' failedUrl.data).map String.mk).getLast?).getD ""

/-- `findCdnUrl`: derive the file name from the failed URL, ask the AI
collaborator (environment) for a CDN URL, and accept the trimmed reply iff it
starts with `http` and contains the file name truncated at its first `.min`
(`url.startsWith('http') && url.includes(fileName.split('.min')[0])`).
`.error` models the AI request itself rejecting. -/
def findCdnUrl (env : Env) (failedUrl : String) : Except String (Option String) :=
  let fileName := fileNameOf failedUrl
  if fileName == "" then Except.ok none
  else
    match env.cdnText failedUrl with
    | Except.error e => Except.error e
    | Except.ok text =>
      let url := strTrim text
      if strStartsWith url "http" && strContains url (strBeforeFirst fileName ".min") then
        Except.ok (some url)
      else Except.ok none

/-! ## Retry/Recovery engine (`retryFailedDownloads`) -/

/-- Result state threaded through a retry pass. -/
structure RetryState where
  zipPaths : List (String × String)
  networkLog : List LogEntry
  stillFailedUrls : List String
deriving DecidableEq, Repr, Inhabited

/-- `isCommonLib`: `/\.(js|css)$/i.test(url) && !url.includes('data:')`. -/
def isCommonLib (url : String) : Bool :=
  (strEndsWithSfx (strToLower url) ".js" || strEndsWithSfx (strToLower url) ".css") &&
    !(strContains url "data:")

/-- Log mutation of a successful proxy re-fetch in `retryFailedDownloads`. -/
def retriedUpdate (r : Resp) (ct : String) (e : LogEntry) : LogEntry :=
  { e with
    status := r.status, statusText := r.statusText ++ " (Retried)",
    contentType := ct, size := r.body.data.length, isError := false }

/-- Log mutation of a successful AI-CDN recovery in `retryFailedDownloads`. -/
def cdnUpdate (r : Resp) (ct : String) (e : LogEntry) : LogEntry :=
  { e with
    status := r.status, statusText := r.statusText ++ " (via AI CDN)",
    contentType := ct, size := r.body.data.length, isError := false }

/-- Log suffix appended when a URL stays failed after the retry pass. -/
def retryFailAnnotate (lastError : String) (e : LogEntry) : LogEntry :=
  { e with statusText := e.statusText ++ " | Retry failed: " ++ lastError }

/-- Log mutation of a successful data-URI resolution. -/
def dataUriUpdate (b : String) (e : LogEntry) : LogEntry :=
  { e with
    status := 200, statusText := "OK (Resolved as Data URI)",
    isError := false, size := b.data.length }

/-- The AI-CDN second attempt of `retryFailedDownloads` for one URL: CDN
lookup, direct (unproxied) fetch, and on success a log update tagged
`(via AI CDN)` plus an archive write at the retry-derived path.  Returns the
new state, whether recovery succeeded, and the latest error message. -/
def retryCdnAttempt (env : Env) (url : String) (st : RetryState) (lastError : String) :
    RetryState × Bool × String :=
  if isCommonLib url then
    match findCdnUrl env url with
    | Except.error e => (st, false, e)
    | Except.ok none => (st, false, lastError)
    | Except.ok (some cdnUrl) =>
      match env.direct cdnUrl with
      | Except.error e => (st, false, e)
      | Except.ok r =>
        if !respOkB r then
          (st, false, "CDN fetch failed with status: " ++ toString r.status)
        else
          let ct := ctOr r.contentType "application/octet-stream"
          let log := updateFirstLog url (cdnUpdate r ct) st.networkLog
          match urlParse url with
          | none => ({ st with networkLog := log }, false, "Invalid URL")
          | some p =>
            ({ st with
               networkLog := log,
               zipPaths := zipPut st.zipPaths (relPathRetry p) r.body }, true, lastError)
  else (st, false, lastError)

/-- Process one failed URL in `retryFailedDownloads`: forced proxy re-fetch,
then the AI-CDN fallback, then the still-failed bookkeeping (appending the
URL and annotating its log entry with the failure reason). -/
def retryProcessOne (env : Env) (st : RetryState) (url : String) : RetryState :=
  let attempted :=
    match cachedFetch env url with
    | Except.error e => retryCdnAttempt env url st e
    | Except.ok (_, r) =>
      if !respOkB r then
        retryCdnAttempt env url st ("Retry failed with status: " ++ toString r.status)
      else
        let ct := ctOr r.contentType "application/octet-stream"
        let log := updateFirstLog url (retriedUpdate r ct) st.networkLog
        match urlParse url with
        | none => retryCdnAttempt env url { st with networkLog := log } "Invalid URL"
        | some p =>
          ({ st with
             networkLog := log,
             zipPaths := zipPut st.zipPaths (relPathRetry p) r.body }, true, "")
  match attempted with
  | (st', true, _) => st'
  | (st', false, lastError) =>
    { st' with
      stillFailedUrls := st'.stillFailedUrls ++ [url],
      networkLog := updateFirstLog url (retryFailAnnotate lastError) st'.networkLog }

/-- `retryFailedDownloads(failedUrls, zip, networkLog, onProgress)`. -/
def retryFailedDownloads (env : Env) (failedUrls : List String)
    (zip : List (String × String)) (networkLog : List LogEntry) : RetryState :=
  failedUrls.foldl (retryProcessOne env) ⟨zip, networkLog, []⟩

/-! ## Data-URI retry variant (`retryFailedDownloadsAsDataURI`) -/

/-- State of the first (resolution) pass of the data-URI variant:
`initiatorsToPatch` is an insertion-ordered map from initiator URL to its
`{failedUrl, dataUri}` replacement list. -/
structure DataUriState where
  networkLog : List LogEntry
  stillFailedUrls : List String
  patches : List (String × List (String × String))
deriving DecidableEq, Repr, Inhabited

/-- Append a replacement to an initiator's patch list, creating the map entry
on first use (`initiatorsToPatch.get(...)!.push(...)`). -/
def addPatch (patches : List (String × List (String × String))) (ini : String)
    (repl : String × String) : List (String × List (String × String)) :=
  if patches.any (fun p => p.1 == ini) then
    patches.map (fun p => if p.1 == ini then (p.1, p.2 ++ [repl]) else p)
  else patches ++ [(ini, [repl])]

/-- The AI-CDN fallback of the data-URI variant: it only produces the blob
(no log/zip writes here). -/
def dataUriCdnBlob (env : Env) (url : String) (lastError : String) :
    Option String × String :=
  if isCommonLib url then
    match findCdnUrl env url with
    | Except.error e => (none, e)
    | Except.ok none => (none, lastError)
    | Except.ok (some cdnUrl) =>
      match env.direct cdnUrl with
      | Except.error e => (none, e)
      | Except.ok r =>
        if !respOkB r then (none, "CDN fetch failed with status: " ++ toString r.status)
        else (some r.body, lastError)
  else (none, lastError)

/-- Resolution pass of `retryFailedDownloadsAsDataURI` for one URL: obtain
the blob (proxy re-fetch, then CDN), convert to a data URI, collect the
initiators to patch, and update the log entry; on failure record the URL as
still failed (this variant leaves the log untouched in that case). -/
def dataUriProcessOne (env : Env) (st : DataUriState) (url : String) : DataUriState :=
  let fetched :=
    match cachedFetch env url with
    | Except.error e => dataUriCdnBlob env url e
    | Except.ok (_, r) =>
      if !respOkB r then
        dataUriCdnBlob env url ("Fetch failed with status: " ++ toString r.status)
      else (some r.body, "")
  match fetched with
  | (some b, _) =>
    let dataUri := env.toDataUri b
    let initiatorUrls := dedupFirst
      ((st.networkLog.filter (fun e => e.url == url && !(e.initiator == "Initial Request"))).map
        LogEntry.initiator)
    { st with
      patches := initiatorUrls.foldl (fun ps ini => addPatch ps ini (url, dataUri)) st.patches,
      networkLog := updateFirstLog url (dataUriUpdate b) st.networkLog }
  | (none, _) => { st with stillFailedUrls := st.stillFailedUrls ++ [url] }

/-- `failedUrl.substring(failedUrl.lastIndexOf('/') + 1)`. -/
def afterLastSlash (cs : List Char) : List Char :=
  (cs.reverse.takeWhile (fun c => !(c == '/'))).reverse

/-- The global alternation replace `content.replace(new RegExp(v1|v2|...,'g'),
rep)`: scan left to right, at each position replace the first variation that
matches and continue after it (fuel is the content length; each step consumes
at least one character). -/
def multiReplaceGo (vars : List String) (rep : List Char) : Nat → List Char → List Char
  | 0, cs => cs
  | _ + 1, [] => []
  | fuel + 1, c :: cs =>
    match vars.find? (fun v => !(v == "") && listStartsWith (c :: cs) v.data) with
    | some v => rep ++ multiReplaceGo vars rep fuel (List.drop (v.data.length - 1) cs)
    | none => c :: multiReplaceGo vars rep fuel cs

/-- String-level alternation replace. -/
def multiReplace (content : String) (vars : List String) (rep : String) : String :=
  String.mk (multiReplaceGo vars rep.data content.data.length content.data)

/-- Apply an initiator's replacement list to its content; `none` models the
inner `new URL(failedUrl)` throwing, which aborts the whole initiator patch
before the archive write. -/
def applyRepls (content : String) : List (String × String) → Option String
  | [] => some content
  | (furl, dataUri) :: rest =>
    match urlParse furl with
    | none => none
    | some fp =>
      let variations := dedupFirst
        (([furl, fp.path, strDrop fp.path 1, String.mk (afterLastSlash furl.data)]).filter
          (fun v => !(v == "")))
      applyRepls (multiReplace content variations dataUri) rest

/-- Patch one initiator file in the archive (second pass of the data-URI
variant): derive its crawl path, read it from the archive (a missing file or
a thrown error is logged and skipped), rewrite all variations, write back. -/
def patchInitiator (zip : List (String × String)) (ini : String)
    (repls : List (String × String)) : List (String × String) :=
  match urlParse ini with
  | none => zip
  | some p =>
    let path := if strDrop p.path 1 == "" then "index.html" else strDrop p.path 1
    match zipGet zip path with
    | none => zip
    | some content =>
      match applyRepls content repls with
      | none => zip
      | some newContent => zipPut zip path newContent

/-- `retryFailedDownloadsAsDataURI(failedUrls, zip, networkLog, onProgress)`. -/
def retryFailedDownloadsAsDataURI (env : Env) (failedUrls : List String)
    (zip : List (String × String)) (networkLog : List LogEntry) : RetryState :=
  let st1 := failedUrls.foldl (dataUriProcessOne env)
    { networkLog := networkLog, stillFailedUrls := [], patches := [] }
  let zip2 := st1.patches.foldl (fun z pr => patchInitiator z pr.1 pr.2) zip
  { zipPaths := zip2, networkLog := st1.networkLog,
    stillFailedUrls := st1.stillFailedUrls }

/-! ## V1 sequential crawl engine (`fetchWebsiteSource`, engine `'v1'`) -/

/-- V1 crawl state.  `fetches` is ghost history: every URL handed to
`cachedFetch`, in order. -/
structure V1State where
  queue : List (String × String)
  processed : List String
  networkLog : List LogEntry
  failedUrls : List String
  zipPaths : List (String × String)
  internalLinks : List String
  downloadedCount : Nat
  fetches : List String
deriving DecidableEq, Repr, Inhabited

/-- Guarded discovery enqueue of the V1 loop: an extracted resource enters
the processed set and the queue only if it has not been seen before. -/
def v1Enqueue (initiatorUrl : String) (s : V1State) (res : String) : V1State :=
  if res ∈ s.processed then s
  else
    { s with
      processed := s.processed ++ [res],
      queue := s.queue ++ [(res, initiatorUrl)] }

/-- The V1 catch block: record the URL as failed and push a zero-status
`Download Failed` log entry. -/
def v1CatchPath (currentUrl initiator : String) (s : V1State) : V1State :=
  { s with
    failedUrls := s.failedUrls ++ [currentUrl],
    networkLog := s.networkLog ++
      [⟨currentUrl, 0, "Download Failed", "unknown", initiator, 0, true⟩] }

/-- One iteration of the V1 while-loop body for a dequeued `{url, initiator}`
(already removed from `s.queue`): fetch, push the response log entry, archive
under the crawl path, extract and enqueue new resources if text-like, collect
internal links on the root HTML document; any thrown error (fetch rejection,
the dead `!response.ok` branch, or `new URL(currentUrl)` throwing) lands in
the catch block. -/
def v1ProcessItem (env : Env) (rootUrl currentUrl initiator : String) (s : V1State) :
    V1State :=
  let s := { s with fetches := s.fetches ++ [currentUrl] }
  match cachedFetch env currentUrl with
  | Except.error _ => v1CatchPath currentUrl initiator s
  | Except.ok (_, r) =>
    let ct := ctOr r.contentType "application/octet-stream"
    let s := { s with networkLog := s.networkLog ++
        [⟨currentUrl, r.status, r.statusText, ct, initiator, r.body.data.length, !respOkB r⟩] }
    if !respOkB r then v1CatchPath currentUrl initiator s
    else
      match urlParse currentUrl with
      | none => v1CatchPath currentUrl initiator s
      | some p =>
        let s := { s with zipPaths := zipPut s.zipPaths (relPathCrawl p) r.body }
        let s :=
          if textLike ct then
            let s := (env.discover ct r.body currentUrl).foldl (v1Enqueue currentUrl) s
            if currentUrl == rootUrl && strContains ct "html" then
              { s with internalLinks := addLinks (env.links r.body currentUrl) s.internalLinks }
            else s
          else s
        { s with downloadedCount := s.downloadedCount + 1 }

/-- The V1 while loop: dequeue and process until the queue is empty; fuel
bounds the number of iterations (`none` = fuel exhausted first). -/
def v1Loop (env : Env) (rootUrl : String) : Nat → V1State → Option V1State
  | 0, s => if s.queue.isEmpty then some s else none
  | fuel + 1, s =>
    match s.queue with
    | [] => some s
    | (u, ini) :: rest =>
      v1Loop env rootUrl fuel (v1ProcessItem env rootUrl u ini { s with queue := rest })

/-- `fetchWebsiteSource(url, options, ..., 'v1')`: the queue and the
processed set are seeded with the root URL, then the queue is drained.  The
process-wide fetch cache is cleared on entry (the cache is modelled away, see
`cachedFetch`); the progress and warning callbacks are effect-free observers
and are not modelled. -/
def v1Run (env : Env) (rootUrl : String) (fuel : Nat) : Option V1State :=
  v1Loop env rootUrl fuel
    { queue := [(rootUrl, "Initial Request")], processed := [rootUrl],
      networkLog := [], failedUrls := [], zipPaths := [], internalLinks := [],
      downloadedCount := 0, fetches := [] }

/-- The frame relation of claim C10 between a network log before and after a
retry pass restricted to `failed`: the length is unchanged, the URL at every
index is unchanged (entries are only mutated in place, never added, removed
or reordered), and every entry whose URL is not in `failed` is unchanged. -/
def LogFrame (failed : List String) (l l' : List LogEntry) : Prop :=
  l'.length = l.length ∧
  (∀ i, (l'.get? i).map LogEntry.url = (l.get? i).map LogEntry.url) ∧
  (∀ i e, l.get? i = some e → e.url ∉ failed → l'.get? i = some e)

/-! ## Claims C7 and C8 -/

/-- Environment for the C7 counterexample: every proxy fails to connect, the
AI collaborator suggests a CDN URL that does NOT contain the failed URL's
full filename (only its `.min`-truncated stem), and the direct CDN fetch
succeeds. -/
def envC7 : Env :=
  { proxy := fun _ _ => ProxyOutcome.connFail,
    discover := fun _ _ _ => [], links := fun _ _ => [],
    cdnText := fun _ => Except.ok "https://cdn.example/jquery.js",
    direct := fun _ => Except.ok ⟨200, "OK", "text/javascript", "JSLIB"⟩,
    toDataUri := fun b => b, hw := 0 }

/-- Environment for the C8 counterexample: every proxy returns HTTP 200 with
an HTML body. -/
def envC8 : Env :=
  { proxy := fun _ _ => ProxyOutcome.resp ⟨200, "OK", "text/html", "HTML"⟩,
    discover := fun _ _ _ => [], links := fun _ _ => [],
    cdnText := fun _ => Except.error "unused", direct := fun _ => Except.error "unused",
    toDataUri := fun b => b, hw := 0 }

/-- Base V1 invariant: distinct processed set; fetch history and queue URLs
jointly duplicate-free; everything fetched or queued was first recorded in
the processed set. -/
def InvV1 (s : V1State) : Prop :=
  s.processed.Nodup ∧
  (s.fetches ++ s.queue.map Prod.fst).Nodup ∧
  (∀ u ∈ s.fetches, u ∈ s.processed) ∧
  (∀ q ∈ s.queue, q.1 ∈ s.processed)

/-- Well-formedness of the environment's resource extractor: `findAllResources`
only ever returns hrefs of successfully constructed `URL` objects
(`addResource` adds `new URL(url, baseUrl).href`), so every discovered URL
parses. -/
def EnvWF (env : Env) : Prop :=
  ∀ ct body base u, u ∈ env.discover ct body base → (urlParse u).isSome = true

/-- Log part of the V1 invariant, maintained under a well-formed extractor
and a parseable root: log URLs are duplicate-free, every log URL was fetched,
and every queued URL parses. -/
def LogInvV1 (s : V1State) : Prop :=
  (s.networkLog.map LogEntry.url).Nodup ∧
  (∀ e ∈ s.networkLog, e.url ∈ s.fetches) ∧
  (∀ q ∈ s.queue, (urlParse q.1).isSome = true)

/-! ## V2 worker-pool crawl engine (`runWorkerDownload`)

The main thread of `runWorkerDownload` is an event loop: worker `message`
events run `handleWorkerMessage`, which is synchronous except for the
`await blob.text()` / `await findAllResources(...)` region in the text-like
success branch — while a handler is suspended there, other message events
run to completion.  The engine is therefore embedded as a labelled
transition system: a `deliver` step runs a handler up to either completion
or its suspension point, and a `resume` step runs a suspended handler's
continuation (enqueue of its discovered resources and worker re-assignment).
`resolve` is recorded in `resolved` together with a snapshot of the join
state at the moment of resolution. -/

/-- A handler suspended at `await blob.text()`: the fetched URL and the
resources its parsed body will enqueue on resume. -/
structure Susp where
  url : String
  newResources : List String
deriving DecidableEq, Repr, Inhabited

/-- Snapshot taken when `resolve` fires: the join-condition fields at that
moment and the delivered result. -/
structure V2Snapshot where
  queueAtResolve : List (String × String)
  activeAtResolve : Nat
  suspendedAtResolve : List Susp
  networkLog : List LogEntry
  failedUrls : List String
  internalLinks : List String
deriving DecidableEq, Repr, Inhabited

/-- V2 crawl state.  `activeWorkers` and `idleWorkers` are the code's
counters (`idleWorkers` counts list length, including the initial
double-listing quirk of `workers.forEach(assignWork)` after every worker was
already pushed idle); `inFlight` holds URLs posted to workers whose message
has not yet been handled; `fetches` is ghost history of every URL dispatched
(the root's main-thread fetch included). -/
structure V2State where
  queue : List (String × String)
  processed : List String
  activeWorkers : Nat
  idleWorkers : Nat
  inFlight : List String
  suspended : List Susp
  networkLog : List LogEntry
  failedUrls : List String
  downloadedCount : Nat
  zipPaths : List (String × String)
  internalLinks : List String
  resolved : Option V2Snapshot
  fetches : List String
deriving DecidableEq, Repr, Inhabited

/-- `checkCompletion`: resolve iff the queue is empty AND no worker is
mid-fetch; a second resolve of the already-settled promise is a no-op. -/
def checkCompletion (s : V2State) : V2State :=
  if s.queue.isEmpty && s.activeWorkers == 0 then
    { s with resolved :=
        match s.resolved with
        | some snap => some snap
        | none => some ⟨s.queue, s.activeWorkers, s.suspended, s.networkLog,
            s.failedUrls, s.internalLinks⟩ }
  else s

/-- `assignWork(worker)`: hand the queue front to the worker (it becomes an
outstanding fetch), or push the worker onto the idle list and check for
completion. -/
def assignWork (s : V2State) : V2State :=
  match s.queue with
  | (u, _) :: rest =>
    { s with
      queue := rest, activeWorkers := s.activeWorkers + 1,
      inFlight := s.inFlight ++ [u], fetches := s.fetches ++ [u] }
  | [] => checkCompletion { s with idleWorkers := s.idleWorkers + 1 }

/-- Guarded enqueue inside `handleWorkerMessage`'s resource loop: dedup
against the processed set, push the queue item and its `Queued` placeholder
log entry, then immediately hand work to an idle worker if any is listed. -/
def handlerEnqueue (initiatorUrl : String) (s : V2State) (res : String) : V2State :=
  if res ∈ s.processed then s
  else
    let s1 : V2State := { s with
      processed := s.processed ++ [res],
      queue := s.queue ++ [(res, initiatorUrl)],
      networkLog := s.networkLog ++ [⟨res, 0, "Queued", "unknown", initiatorUrl, 0, false⟩] }
    if s1.idleWorkers > 0 then assignWork { s1 with idleWorkers := s1.idleWorkers - 1 }
    else s1

/-- Guarded enqueue of the root document's resources (lines 281–287: no
idle-worker dispatch there; the workers are all started afterwards by
`workers.forEach(assignWork)`). -/
def initialEnqueue (initiatorUrl : String) (s : V2State) (res : String) : V2State :=
  if res ∈ s.processed then s
  else
    { s with
      processed := s.processed ++ [res],
      queue := s.queue ++ [(res, initiatorUrl)],
      networkLog := s.networkLog ++ [⟨res, 0, "Queued", "unknown", initiatorUrl, 0, false⟩] }

/-- Log mutation of a worker `success` message (`Object.assign(logEntry, ...)`). -/
def workerSuccessUpdate (r : Resp) (ct : String) (e : LogEntry) : LogEntry :=
  { e with
    status := r.status, statusText := r.statusText, contentType := ct,
    size := r.body.data.length, isError := decide (400 ≤ r.status) }

/-- Log mutation of a worker `error` message. -/
def workerErrorUpdate (e : LogEntry) : LogEntry :=
  { e with status := 0, statusText := "Worker Error", isError := true }

/-- Delivery of a worker's message for `u`, i.e. the synchronous part of
`handleWorkerMessage`.  The worker's outcome is its own proxy chain
(`workerFetchWithProxy`, which returns 4xx responses).  On a text-like
success (HTTP < 400) the handler suspends at `await blob.text()` — its
discovered resources are enqueued only at resume; on a non-text success the
item completes and the worker is re-assigned; on an HTTP-error success the
URL is recorded failed; on a worker error the log entry is overwritten and
the URL recorded failed.  A sub-400 response for a URL that `new URL`
rejects crashes the handler right after the log update (the exception is
uncaught), so the worker is never re-assigned. -/
def deliverStep (env : Env) (u : String) (s : V2State) : V2State :=
  let s := { s with activeWorkers := s.activeWorkers - 1, inFlight := s.inFlight.erase u }
  match workerFetchWithProxy env u with
  | Except.ok (_, r) =>
    let ct := ctOr r.contentType "application/octet-stream"
    let s := { s with networkLog := updateFirstLog u (workerSuccessUpdate r ct) s.networkLog }
    if r.status < 400 then
      match urlParse u with
      | none => s
      | some p =>
        let s := { s with zipPaths := zipPut s.zipPaths (relPathCrawl p) r.body }
        if textLike ct then
          { s with suspended := s.suspended ++ [⟨u, env.discover ct r.body u⟩] }
        else
          assignWork { s with downloadedCount := s.downloadedCount + 1 }
    else
      assignWork { s with failedUrls := s.failedUrls ++ [u] }
  | Except.error _ =>
    let s := { s with
      failedUrls := s.failedUrls ++ [u],
      networkLog := updateFirstLog u workerErrorUpdate s.networkLog }
    assignWork s

/-- Resumption of the `i`-th suspended handler: its parsed resources are
enqueued (with opportunistic dispatch to idle workers), the download counter
advances, and the handler's worker is re-assigned. -/
def resumeStep (i : Nat) (s : V2State) : V2State :=
  match s.suspended.get? i with
  | none => s
  | some susp =>
    let s := { s with suspended := s.suspended.eraseIdx i }
    let s := susp.newResources.foldl (handlerEnqueue susp.url) s
    assignWork { s with downloadedCount := s.downloadedCount + 1 }

/-- Iterated `assignWork` (`workers.forEach(assignWork)`). -/
def applyAssignN : Nat → V2State → V2State
  | 0, s => s
  | n + 1, s => applyAssignN n (assignWork s)

/-- The setup phase of `runWorkerDownload`: worker creation (pool size
`navigator.hardwareConcurrency || 4`), the awaited root fetch through the
main-thread proxy chain (`cachedFetch(url, options, true)`), the root's log
entry, archive write, resource extraction, internal links, and the initial
`workers.forEach(assignWork)`.  Any throw — root fetch rejection, the
(transport-dead) `!response.ok` branch, `new URL(url)` on an unparseable
root — is caught by the surrounding try/catch, which terminates the workers
and REJECTS the promise: `Except.error` is that rejection, and no result
object is ever produced. -/
def v2Init (env : Env) (rootUrl : String) : Except String V2State :=
  let concurrency := if env.hw == 0 then 4 else env.hw
  match cachedFetch env rootUrl with
  | Except.error e => Except.error e
  | Except.ok (_, r) =>
    let ct := ctOr r.contentType "text/html"
    if !respOkB r then Except.error ("Failed to fetch main page: " ++ r.statusText)
    else
      match urlParse rootUrl with
      | none => Except.error "Invalid URL"
      | some p =>
        let s : V2State :=
          { queue := [], processed := [rootUrl], activeWorkers := 0,
            idleWorkers := concurrency, inFlight := [], suspended := [],
            networkLog := [⟨rootUrl, r.status, r.statusText, ct, "Initial Request",
              r.body.data.length, !respOkB r⟩],
            failedUrls := [], downloadedCount := 1,
            zipPaths := [(relPathCrawl p, r.body)], internalLinks := [],
            resolved := none, fetches := [rootUrl] }
        let s := (env.discover ct r.body rootUrl).foldl (initialEnqueue rootUrl) s
        let s := { s with internalLinks := addLinks (env.links r.body rootUrl) s.internalLinks }
        Except.ok (applyAssignN concurrency s)

/-- One event-loop step of the V2 engine: deliver a pending worker message
(only while unresolved — `cleanup()` terminates the workers at resolve), or
resume a suspended handler (a main-thread continuation, which still runs
after resolve). -/
inductive V2Step (env : Env) : V2State → V2State → Prop where
  | deliver (s : V2State) (u : String) (h1 : u ∈ s.inFlight) (h2 : s.resolved = none) :
      V2Step env s (deliverStep env u s)
  | resume (s : V2State) (i : Nat) (h : i < s.suspended.length) :
      V2Step env s (resumeStep i s)

/-- Reachability in the V2 event loop. -/
def V2Reach (env : Env) : V2State → V2State → Prop :=
  Relation.ReflTransGen (V2Step env)

/-- The V2 dedup-and-log invariant: the processed set is duplicate-free, no
URL is dispatched twice or queued twice, everything dispatched or queued was
recorded processed first, the log has at most one entry per URL, and every
log URL is processed. -/
def InvV2 (s : V2State) : Prop :=
  s.processed.Nodup ∧
  (s.fetches ++ s.queue.map Prod.fst).Nodup ∧
  (∀ u ∈ s.fetches, u ∈ s.processed) ∧
  (∀ q ∈ s.queue, q.1 ∈ s.processed) ∧
  (s.networkLog.map LogEntry.url).Nodup ∧
  (∀ e ∈ s.networkLog, e.url ∈ s.processed)

/-- State of a completed concrete V1 run used to witness C2. -/
def c2wState : V1State :=
  (v1Run envC8 "https://x.com/" 2).getD default

/-- State of a completed concrete V1 run used to witness C6. -/
def c6wState : V1State :=
  (v1Run envC8 "https://x.com/" 2).getD default

/-- Environment of the C3 race: the root references a JS file (which will
discover one more resource when parsed) and an image; every fetch succeeds
immediately. -/
def envC3 : Env :=
  { proxy := fun u _ => ProxyOutcome.resp
      ⟨200, "OK",
        if u == "https://r.io/" then "text/html"
        else if u == "https://r.io/a.js" then "text/javascript"
        else if u == "https://r.io/b.png" then "image/png"
        else "text/plain", "BODY"⟩,
    discover := fun _ _ base =>
      if base == "https://r.io/" then ["https://r.io/a.js", "https://r.io/b.png"]
      else if base == "https://r.io/a.js" then ["https://r.io/c.js"]
      else [],
    links := fun _ _ => [],
    cdnText := fun _ => Except.error "unused",
    direct := fun _ => Except.error "unused",
    toDataUri := fun b => b, hw := 0 }

/-- Setup state of the C3 race trace. -/
def c3s0 : V2State :=
  match v2Init envC3 "https://r.io/" with
  | Except.ok s => s
  | Except.error _ => default

/-- After delivering the JS file's message: its handler suspends at
`await blob.text()`, about to enqueue `c.js`. -/
def c3s1 : V2State := deliverStep envC3 "https://r.io/a.js" c3s0

/-- After delivering the image's message: queue empty, `activeWorkers = 0`,
so `checkCompletion` resolves — while the JS handler is still suspended. -/
def c3s2 : V2State := deliverStep envC3 "https://r.io/b.png" c3s1

/-- The snapshot at that premature resolution. -/
def c3snap : V2Snapshot := (c3s2.resolved).getD default

theorem mem_dedupFirstAux {x : String} :
    ∀ (l : List String) (seen : List String),
      x ∈ dedupFirstAux seen l ↔ x ∈ l ∧ x ∉ seen := by
  intro l
  induction l with
  | nil => intro seen; simp [dedupFirstAux]
  | cons y ys ih =>
    intro seen
    by_cases hy : y ∈ seen
    · simp only [dedupFirstAux, if_pos hy, ih, List.mem_cons]
      constructor
      · rintro ⟨h1, h2⟩; exact ⟨Or.inr h1, h2⟩
      · rintro ⟨rfl | h1, h2⟩
        · exact absurd hy h2
        · exact ⟨h1, h2⟩
    · simp only [dedupFirstAux, if_neg hy, List.mem_cons, ih]
      constructor
      · rintro (rfl | ⟨h1, h2⟩)
        · exact ⟨Or.inl rfl, hy⟩
        · refine ⟨Or.inr h1, fun hc => h2 ?_⟩
          simp_all
      · rintro ⟨rfl | h1, h2⟩
        · exact Or.inl rfl
        · by_cases hxy : x = y
          · exact Or.inl hxy
          · exact Or.inr ⟨h1, by simp [hxy, h2]⟩

theorem mem_dedupFirst {x : String} {l : List String} :
    x ∈ dedupFirst l ↔ x ∈ l := by
  simp [dedupFirst, mem_dedupFirstAux]

/-- Exhaustion lemma: if every proxy tried from index `k` on makes the
main-thread chain advance, the chain rejects. -/
theorem fetchWithProxyGo_exhaust (env : Env) (url : String) :
    ∀ n k, (∀ i, k ≤ i → i < k + n → advanceOutcomeB (env.proxy url i) = true) →
      fetchWithProxyGo env url n k = Except.error "All proxies failed." := by
  intro n
  induction n with
  | zero => intro k _; rfl
  | succ n ih =>
    intro k h
    have hadv := h k le_rfl (by omega)
    rw [fetchWithProxyGo]
    cases ho : env.proxy url k with
    | connFail =>
      exact ih (k + 1) (fun i hi hl => h i (by omega) (by omega))
    | resp r =>
      rw [ho] at hadv
      simp only [advanceOutcomeB, Bool.not_eq_true'] at hadv
      simp only [hadv, Bool.false_eq_true, if_false]
      exact ih (k + 1) (fun i hi hl => h i (by omega) (by omega))

/-- Exhaustion for `fetchWithProxy` at index 0. -/
theorem fetchWithProxy_exhaust (env : Env) (url : String)
    (h : ∀ i, i < PROXIES.length → advanceOutcomeB (env.proxy url i) = true) :
    fetchWithProxy env url = Except.error "All proxies failed." :=
  fetchWithProxyGo_exhaust env url PROXIES.length 0 (fun i _ hl => h i (by omega))

/-- On aligned outcomes the main-thread and worker proxy chains make the
same decisions: same successful proxy and response, or both exhaust the
list (their rejection messages differ textually). -/
theorem fetchWithProxyGo_worker_aligned (env : Env) (url : String) :
    ∀ n k, (∀ i, k ≤ i → i < k + n → alignedOutcomeB (env.proxy url i) = true) →
      (fetchWithProxyGo env url n k).toOption =
        (workerFetchWithProxyGo env url n k).toOption := by
  intro n
  induction n with
  | zero => intro k _; rfl
  | succ n ih =>
    intro k h
    have hal := h k le_rfl (by omega)
    rw [fetchWithProxyGo, workerFetchWithProxyGo]
    cases ho : env.proxy url k with
    | connFail =>
      exact ih (k + 1) (fun i hi hl => h i (by omega) (by omega))
    | resp r =>
      rw [ho] at hal
      simp only [alignedOutcomeB, Bool.or_eq_true] at hal
      by_cases hok : respOkB r = true
      · have h5 : ¬ (500 ≤ r.status && r.status < 600) = true := by
          simp only [respOkB, Bool.and_eq_true, decide_eq_true_eq] at hok ⊢
          omega
        simp [hok, h5]
      · have h5 : (500 ≤ r.status && r.status < 600) = true := by tauto
        simp only [hok, Bool.false_eq_true, if_false, h5, if_true]
        exact ih (k + 1) (fun i hi hl => h i (by omega) (by omega))

/-- Claim C5: for the Transport Layer's `fetchWithProxy`, if the first two
configured proxies return HTTP 500 and the third returns HTTP 200, the call
succeeds and returns the third proxy's response; and for any input where
every configured proxy either fails to connect or returns a non-success
response, the call fails with the all-proxies-exhausted error. -/
theorem claim_C5_proxy_fallback :
    fetchWithProxy envThirdOk "https://x.com/" = Except.ok (2, respWith 200) ∧
    (∀ (env : Env) (url : String),
      (∀ i, i < PROXIES.length → advanceOutcomeB (env.proxy url i) = true) →
      fetchWithProxy env url = Except.error "All proxies failed.") :=
  ⟨rfl, fun env url h => fetchWithProxy_exhaust env url h⟩

/-- Witness for C5 at a concrete input: with every proxy failing to connect,
the call rejects with the exhaustion error. -/
theorem claim_C5_witness :
    fetchWithProxy envAllConnFail "https://x.com/" = Except.error "All proxies failed." :=
  claim_C5_proxy_fallback.2 envAllConnFail "https://x.com/" (fun _ _ => rfl)

/-- Claim C4 counterexample: with every proxy returning HTTP 404, the
main-thread `fetchWithProxy` advances past every proxy and exhausts the list,
while the worker-pool variant returns the first proxy's 404 response, so the
two fetch functions are not observably equivalent. -/
theorem claim_C4_counterexample :
    fetchWithProxy envAll404 "https://x.com/a.js" = Except.error "All proxies failed." ∧
    workerFetchWithProxy envAll404 "https://x.com/a.js" = Except.ok (0, respWith 404) ∧
    (fetchWithProxy envAll404 "https://x.com/a.js").toOption ≠
      (workerFetchWithProxy envAll404 "https://x.com/a.js").toOption :=
  ⟨rfl, rfl, by decide⟩

/-- Claim C4 (amended): the worker-pool fetch advances only on connection
failures and 5xx responses, whereas the main-thread `fetchWithProxy` advances
on any non-ok response; the two are observably equivalent (same successful
proxy and response, or both exhaust) exactly on runs in which every proxy
outcome is a connection failure, an ok response, or a 5xx response. -/
theorem claim_C4_aligned_equivalence (env : Env) (url : String)
    (h : ∀ i, i < PROXIES.length → alignedOutcomeB (env.proxy url i) = true) :
    (fetchWithProxy env url).toOption = (workerFetchWithProxy env url).toOption :=
  fetchWithProxyGo_worker_aligned env url PROXIES.length 0 (fun i _ hl => h i (by omega))

/-- Witness for the amended C4 at a concrete input: two 500s then a 200 is an
aligned run, and both variants then agree. -/
theorem claim_C4_witness :
    (fetchWithProxy envThirdOk "https://x.com/").toOption =
      (workerFetchWithProxy envThirdOk "https://x.com/").toOption :=
  claim_C4_aligned_equivalence envThirdOk "https://x.com/" (fun i _ => by
    by_cases h2 : i = 2 <;> simp [envThirdOk, alignedOutcomeB, respWith, respOkB, h2])

/-- Exact characterization of the AST walk: a URL is collected iff it is the
resolution of a dynamic-import source, or of the trimmed value of a string
literal that passes the (unanchored) URL-shape test and the asset-extension
test. -/
theorem walkJs_mem_iff (baseUrl : String) :
    ∀ (ast : JsAst) (r : String),
      r ∈ walkJs baseUrl ast ↔
        ((∃ v ∈ importSources ast, r ∈ addResourceL v baseUrl) ∨
         (∃ v ∈ stringLiterals ast,
            (urlLikeTest (strTrim v) && assetExtTest (strTrim v)) = true ∧
            r ∈ addResourceL (strTrim v) baseUrl)) := by
  intro ast
  induction ast with
  | importExpr source ih =>
    intro r
    cases source with
    | importExpr s' =>
      simpa only [walkJs, importSources, stringLiterals, List.nil_append]
        using ih r
    | lit ov =>
      cases ov with
      | none =>
        simp [walkJs, importSources, stringLiterals]
      | some v =>
        simp only [walkJs, importSources, stringLiterals, List.mem_append,
          List.mem_singleton, List.not_mem_nil]
        constructor
        · rintro (h | h)
          · exact Or.inl ⟨v, by simp, h⟩
          · by_cases hg : (urlLikeTest (strTrim v) && assetExtTest (strTrim v)) = true
            · rw [if_pos hg] at h
              exact Or.inr ⟨v, by simp, hg, h⟩
            · rw [if_neg hg] at h
              simp at h
        · rintro (⟨w, hw, h⟩ | ⟨w, hw, hg, h⟩)
          · simp only [List.mem_append, List.mem_singleton, List.not_mem_nil,
              or_false] at hw
            subst hw
            exact Or.inl h
          · subst hw
            exact Or.inr (by rw [if_pos hg]; exact h)
    | seq a b =>
      simpa only [walkJs, importSources, stringLiterals, List.nil_append]
        using ih r
    | leaf =>
      simp [walkJs, importSources, stringLiterals]
  | lit ov =>
    intro r
    cases ov with
    | none => simp [walkJs, importSources, stringLiterals]
    | some v =>
      simp only [walkJs, importSources, stringLiterals, List.not_mem_nil,
        false_and, exists_false, false_or, List.mem_singleton]
      constructor
      · intro h
        by_cases hg : (urlLikeTest (strTrim v) && assetExtTest (strTrim v)) = true
        · rw [if_pos hg] at h
          exact ⟨v, rfl, hg, h⟩
        · rw [if_neg hg] at h
          simp at h
      · rintro ⟨w, hw, hg, h⟩
        subst hw
        rw [if_pos hg]
        exact h
  | seq a b iha ihb =>
    intro r
    simp only [walkJs, importSources, stringLiterals, List.mem_append, iha, ihb]
    constructor
    · rintro ((h | h) | (h | h))
      · exact Or.inl (by obtain ⟨v, hv, hm⟩ := h; exact ⟨v, Or.inl hv, hm⟩)
      · exact Or.inr (by obtain ⟨v, hv, hg, hm⟩ := h; exact ⟨v, Or.inl hv, hg, hm⟩)
      · exact Or.inl (by obtain ⟨v, hv, hm⟩ := h; exact ⟨v, Or.inr hv, hm⟩)
      · exact Or.inr (by obtain ⟨v, hv, hg, hm⟩ := h; exact ⟨v, Or.inr hv, hg, hm⟩)
    · rintro (⟨v, hv, hm⟩ | ⟨v, hv, hg, hm⟩)
      · rcases hv with hva | hvb
        · exact Or.inl (Or.inl ⟨v, hva, hm⟩)
        · exact Or.inr (Or.inl ⟨v, hvb, hm⟩)
      · rcases hv with hva | hvb
        · exact Or.inl (Or.inr ⟨v, hva, hg, hm⟩)
        · exact Or.inr (Or.inr ⟨v, hvb, hg, hm⟩)
  | leaf =>
    intro r
    simp [walkJs, importSources, stringLiterals]

/-- Claim C9 counterexample: the string literal `"lib/app.js"` starts with
none of the shapes the claim lists, yet the AST extraction collects it
(resolved against the base URL), because the second and third alternatives of
`URL_LIKE_STRING_REGEX` are not anchored at the start of the string. -/
theorem claim_C9_counterexample :
    specClaimedPathShape "lib/app.js" = false ∧
    findResourcesInJsAst (JsAst.lit (some "lib/app.js")) "https://x.com/" =
      ["https://x.com/lib/app.js"] :=
  ⟨by decide, by decide⟩

/-- Claim C9 (amended): the JavaScript AST extraction collects exactly
(a) the source string of every dynamic `import(...)` expression and (b) every
string literal whose trimmed value matches `URL_LIKE_STRING_REGEX` — i.e.
starts with `//`, `http://` or `https://`, or contains `./` anywhere, or
contains `/` followed by a non-`/` character anywhere — and ends in a known
asset extension, each resolved against the base URL (empty, `data:`, `blob:`
and unresolvable references dropped), and nothing else; in particular
`import('./mod.js')` and `fetch('/api/data.json')` yield both resolved URLs
and a string literal `"hello"` yields nothing. -/
theorem claim_C9_js_ast_extraction :
    (∀ (ast : JsAst) (baseUrl r : String),
      r ∈ findResourcesInJsAst ast baseUrl ↔
        ((∃ v ∈ importSources ast, r ∈ addResourceL v baseUrl) ∨
         (∃ v ∈ stringLiterals ast,
            (urlLikeTest (strTrim v) && assetExtTest (strTrim v)) = true ∧
            r ∈ addResourceL (strTrim v) baseUrl))) ∧
    "https://x.com/mod.js" ∈ findResourcesInJsAst c9ExampleAst "https://x.com/" ∧
    "https://x.com/api/data.json" ∈ findResourcesInJsAst c9ExampleAst "https://x.com/" ∧
    findResourcesInJsAst (JsAst.lit (some "hello")) "https://x.com/" = [] := by
  refine ⟨fun ast baseUrl r => ?_, by decide, by decide, by decide⟩
  rw [findResourcesInJsAst, mem_dedupFirst]
  exact walkJs_mem_iff baseUrl ast r

/-! ## Log-frame lemmas for the retry passes -/

theorem updateFirstLog_length (u : String) (f : LogEntry → LogEntry) :
    ∀ l : List LogEntry, (updateFirstLog u f l).length = l.length := by
  intro l
  induction l with
  | nil => rfl
  | cons e rest ih =>
    rw [updateFirstLog]
    by_cases h : e.url == u <;> simp [h, ih]

theorem updateFirstLog_get_url (u : String) (f : LogEntry → LogEntry)
    (hf : ∀ e, (f e).url = e.url) :
    ∀ (l : List LogEntry) (i : Nat),
      ((updateFirstLog u f l).get? i).map LogEntry.url = (l.get? i).map LogEntry.url := by
  intro l
  induction l with
  | nil => intro i; rfl
  | cons e rest ih =>
    intro i
    rw [updateFirstLog]
    by_cases h : e.url == u
    · simp only [h, if_true]
      cases i with
      | zero => simp [hf]
      | succ j => simp
    · simp only [h, Bool.false_eq_true, if_false]
      cases i with
      | zero => simp
      | succ j => simpa using ih j

theorem updateFirstLog_get_other (u : String) (f : LogEntry → LogEntry) :
    ∀ (l : List LogEntry) (i : Nat) (e : LogEntry),
      l.get? i = some e → e.url ≠ u → (updateFirstLog u f l).get? i = some e := by
  intro l
  induction l with
  | nil => intro i e h _; simp at h
  | cons e0 rest ih =>
    intro i e h hne
    rw [updateFirstLog]
    by_cases h0 : e0.url == u
    · simp only [h0, if_true]
      cases i with
      | zero =>
        simp only [List.get?] at h
        injection h with h
        subst h
        exact absurd (by simpa using h0) hne
      | succ j => simpa using h
    · simp only [h0, Bool.false_eq_true, if_false]
      cases i with
      | zero => simpa using h
      | succ j => exact ih j e (by simpa using h) hne

theorem logFrame_refl (failed : List String) (l : List LogEntry) :
    LogFrame failed l l :=
  ⟨rfl, fun _ => rfl, fun _ _ h _ => h⟩

theorem logFrame_trans {failed : List String} {l1 l2 l3 : List LogEntry}
    (h12 : LogFrame failed l1 l2) (h23 : LogFrame failed l2 l3) :
    LogFrame failed l1 l3 := by
  obtain ⟨hl12, hu12, hf12⟩ := h12
  obtain ⟨hl23, hu23, hf23⟩ := h23
  refine ⟨hl23.trans hl12, fun i => (hu23 i).trans (hu12 i), fun i e he hne => ?_⟩
  exact hf23 i e (hf12 i e he hne) hne

theorem logFrame_update {failed : List String} {u : String}
    (hu : u ∈ failed) (f : LogEntry → LogEntry) (hf : ∀ e, (f e).url = e.url)
    (l : List LogEntry) : LogFrame failed l (updateFirstLog u f l) := by
  refine ⟨updateFirstLog_length u f l, updateFirstLog_get_url u f hf l,
    fun i e he hne => ?_⟩
  exact updateFirstLog_get_other u f l i e he (fun hq => hne (hq ▸ hu))

theorem retryCdnAttempt_logFrame {failed : List String} (env : Env) {u : String}
    (hu : u ∈ failed) (st : RetryState) (lastError : String) :
    LogFrame failed st.networkLog ((retryCdnAttempt env u st lastError).1).networkLog := by
  rw [retryCdnAttempt]
  split
  · split
    · exact logFrame_refl _ _
    · exact logFrame_refl _ _
    · split
      · exact logFrame_refl _ _
      · rename_i r hr
        split
        · exact logFrame_refl _ _
        · split
          · exact logFrame_update hu
              (cdnUpdate r (ctOr r.contentType "application/octet-stream"))
              (fun e => rfl) st.networkLog
          · exact logFrame_update hu
              (cdnUpdate r (ctOr r.contentType "application/octet-stream"))
              (fun e => rfl) st.networkLog
  · exact logFrame_refl _ _

theorem retryProcessOne_logFrame {failed : List String} (env : Env) {u : String}
    (hu : u ∈ failed) (st : RetryState) :
    LogFrame failed st.networkLog ((retryProcessOne env st u).networkLog) := by
  have hcdn : ∀ (st0 : RetryState) (le : String),
      LogFrame failed st.networkLog st0.networkLog →
      LogFrame failed st.networkLog
        ((match retryCdnAttempt env u st0 le with
          | (st', true, _) => st'
          | (st', false, lastError) =>
            { st' with
              stillFailedUrls := st'.stillFailedUrls ++ [u],
              networkLog := updateFirstLog u (retryFailAnnotate lastError) st'.networkLog }) :
          RetryState).networkLog := by
    intro st0 le h0
    have h1 := retryCdnAttempt_logFrame env hu st0 le
    rcases hA : retryCdnAttempt env u st0 le with ⟨st', b, le'⟩
    rw [hA] at h1
    cases b with
    | true => exact logFrame_trans h0 h1
    | false =>
      exact logFrame_trans h0 (logFrame_trans h1
        (logFrame_update hu (retryFailAnnotate le') (fun e => rfl) _))
  rcases hF : cachedFetch env u with e | ⟨i, r⟩
  · rw [retryProcessOne, hF]
    exact hcdn st _ (logFrame_refl _ _)
  · rw [retryProcessOne, hF]
    dsimp only
    by_cases hok : (!respOkB r) = true
    · rw [if_pos hok]
      exact hcdn st _ (logFrame_refl _ _)
    · rw [if_neg hok]
      rcases hP : urlParse u with _ | p
      · exact hcdn _ _
          (logFrame_update hu (retriedUpdate r (ctOr r.contentType "application/octet-stream"))
            (fun e => rfl) st.networkLog)
      · exact logFrame_update hu
          (retriedUpdate r (ctOr r.contentType "application/octet-stream"))
          (fun e => rfl) st.networkLog

theorem dataUriProcessOne_logFrame {failed : List String} (env : Env) {u : String}
    (hu : u ∈ failed) (st : DataUriState) :
    LogFrame failed st.networkLog ((dataUriProcessOne env st u).networkLog) := by
  rw [dataUriProcessOne]
  split
  · exact logFrame_update hu (dataUriUpdate _) (fun e => rfl) st.networkLog
  · exact logFrame_refl _ _

theorem foldl_retry_logFrame (env : Env) (failed : List String) :
    ∀ (urls : List String) (st : RetryState), (∀ u ∈ urls, u ∈ failed) →
      LogFrame failed st.networkLog ((urls.foldl (retryProcessOne env) st).networkLog) := by
  intro urls
  induction urls with
  | nil => intro st _; exact logFrame_refl _ _
  | cons w ws ih =>
    intro st h
    exact logFrame_trans (retryProcessOne_logFrame env (h w (by simp)) st)
      (ih _ (fun u hu => h u (by simp [hu])))

theorem foldl_dataUri_logFrame (env : Env) (failed : List String) :
    ∀ (urls : List String) (st : DataUriState), (∀ u ∈ urls, u ∈ failed) →
      LogFrame failed st.networkLog ((urls.foldl (dataUriProcessOne env) st).networkLog) := by
  intro urls
  induction urls with
  | nil => intro st _; exact logFrame_refl _ _
  | cons w ws ih =>
    intro st h
    exact logFrame_trans (dataUriProcessOne_logFrame env (h w (by simp)) st)
      (ih _ (fun u hu => h u (by simp [hu])))

/-- Claim C10: both retry passes leave the network log's length and entry
order unchanged — entries are only mutated in place, never added or removed —
and every entry whose URL is not in the input failed-URL list is left
completely unchanged (the `LogFrame` relation). -/
theorem claim_C10_retry_frame :
    ∀ (env : Env) (failedUrls : List String) (zip : List (String × String))
      (log : List LogEntry),
      LogFrame failedUrls log (retryFailedDownloads env failedUrls zip log).networkLog ∧
      LogFrame failedUrls log
        (retryFailedDownloadsAsDataURI env failedUrls zip log).networkLog := by
  intro env failedUrls zip log
  constructor
  · exact foldl_retry_logFrame env failedUrls failedUrls ⟨zip, log, []⟩ (fun u hu => hu)
  · exact foldl_dataUri_logFrame env failedUrls failedUrls ⟨log, [], []⟩ (fun u hu => hu)

/-- Witness for C10 at a concrete input: a log entry for a URL that is not in
the failed list survives a full retry pass unchanged. -/
theorem claim_C10_witness :
    LogFrame ["https://a.io/x.js"]
      [⟨"https://a.io/ok.css", 200, "OK", "text/css", "https://a.io/", 3, false⟩]
      (retryFailedDownloads envAllConnFail ["https://a.io/x.js"] []
        [⟨"https://a.io/ok.css", 200, "OK", "text/css", "https://a.io/", 3, false⟩]).networkLog :=
  (claim_C10_retry_frame envAllConnFail ["https://a.io/x.js"] []
    [⟨"https://a.io/ok.css", 200, "OK", "text/css", "https://a.io/", 3, false⟩]).1

/-! ## Still-failed bookkeeping lemmas (claim C7) -/

theorem retryCdnAttempt_still (env : Env) (u : String) (st : RetryState)
    (lastError : String) :
    ((retryCdnAttempt env u st lastError).1).stillFailedUrls = st.stillFailedUrls := by
  rw [retryCdnAttempt]
  repeat' split
  all_goals rfl

theorem retryCdnAttempt_no_accept (env : Env) (u : String) (st : RetryState)
    (lastError : String) (hcdn : ∀ c, findCdnUrl env u ≠ Except.ok (some c)) :
    ∃ le', retryCdnAttempt env u st lastError = (st, false, le') := by
  rw [retryCdnAttempt]
  split
  · split
    · rename_i e he
      exact ⟨e, rfl⟩
    · exact ⟨lastError, rfl⟩
    · rename_i c hc
      exact absurd hc (hcdn c)
  · exact ⟨lastError, rfl⟩

theorem retryProcessOne_fail_mem (env : Env) (st : RetryState) (u : String)
    (hfetch : ∀ ir, cachedFetch env u ≠ Except.ok ir)
    (hcdn : ∀ c, findCdnUrl env u ≠ Except.ok (some c)) :
    u ∈ (retryProcessOne env st u).stillFailedUrls := by
  rcases hF : cachedFetch env u with e | ir
  · rw [retryProcessOne, hF]
    dsimp only
    obtain ⟨le', hA⟩ := retryCdnAttempt_no_accept env u st e hcdn
    rw [hA]
    dsimp only
    simp
  · exact absurd hF (hfetch ir)

theorem retryProcessOne_still_mono (env : Env) (st : RetryState) (u v : String)
    (hv : v ∈ st.stillFailedUrls) : v ∈ (retryProcessOne env st u).stillFailedUrls := by
  have hmatch : ∀ (st0 : RetryState) (le : String),
      st0.stillFailedUrls = st.stillFailedUrls →
      v ∈ ((match retryCdnAttempt env u st0 le with
          | (st', true, _) => st'
          | (st', false, lastError) =>
            { st' with
              stillFailedUrls := st'.stillFailedUrls ++ [u],
              networkLog := updateFirstLog u (retryFailAnnotate lastError) st'.networkLog }) :
          RetryState).stillFailedUrls := by
    intro st0 le h0
    have h1 := retryCdnAttempt_still env u st0 le
    rcases hA : retryCdnAttempt env u st0 le with ⟨st', b, le'⟩
    rw [hA] at h1
    cases b with
    | true => rw [h1, h0]; exact hv
    | false => simp only [List.mem_append]; exact Or.inl (by rw [h1, h0]; exact hv)
  rcases hF : cachedFetch env u with e | ⟨i, r⟩
  · rw [retryProcessOne, hF]
    exact hmatch st _ rfl
  · rw [retryProcessOne, hF]
    dsimp only
    by_cases hok : (!respOkB r) = true
    · rw [if_pos hok]
      exact hmatch st _ rfl
    · rw [if_neg hok]
      rcases hP : urlParse u with _ | p
      · exact hmatch _ _ rfl
      · exact hv

theorem retryFold_still_mono (env : Env) :
    ∀ (urls : List String) (st : RetryState) (v : String),
      v ∈ st.stillFailedUrls → v ∈ (urls.foldl (retryProcessOne env) st).stillFailedUrls := by
  intro urls
  induction urls with
  | nil => intro st v hv; exact hv
  | cons w ws ih =>
    intro st v hv
    exact ih _ v (retryProcessOne_still_mono env st w v hv)

theorem retryRun_still_mem (env : Env) :
    ∀ (urls : List String) (st : RetryState) (u : String), u ∈ urls →
      (∀ ir, cachedFetch env u ≠ Except.ok ir) →
      (∀ c, findCdnUrl env u ≠ Except.ok (some c)) →
      u ∈ (urls.foldl (retryProcessOne env) st).stillFailedUrls := by
  intro urls
  induction urls with
  | nil => intro st u hu; simp at hu
  | cons w ws ih =>
    intro st u hu hfetch hcdn
    rcases List.mem_cons.mp hu with rfl | hu'
    · exact retryFold_still_mono env ws _ u (retryProcessOne_fail_mem env st u hfetch hcdn)
    · exact ih _ u hu' hfetch hcdn

/-- Claim C7 counterexample: for failed URL `https://x.com/jquery.min.js` the
collaborator's reply `https://cdn.example/jquery.js` does not contain the
base filename `jquery.min.js`, yet `findCdnUrl` accepts it (the code checks
containment of `fileName.split('.min')[0] = "jquery"` only) and the retry
pass recovers the URL, so it does NOT remain in `stillFailedUrls`. -/
theorem claim_C7_counterexample :
    strContains "https://cdn.example/jquery.js" "jquery.min.js" = false ∧
    findCdnUrl envC7 "https://x.com/jquery.min.js" =
      Except.ok (some "https://cdn.example/jquery.js") ∧
    (retryFailedDownloads envC7 ["https://x.com/jquery.min.js"] []
      [⟨"https://x.com/jquery.min.js", 0, "Download Failed", "unknown",
        "https://x.com/", 0, true⟩]).stillFailedUrls = [] :=
  ⟨by decide, rfl, by decide⟩

/-- Claim C7 (amended): the recovery engine accepts the collaborator's reply
(and proceeds to fetch it) iff the trimmed reply starts with `http` and
contains the failed URL's base filename truncated at its first `.min`
(`fileName.split('.min')[0]`; for filenames without `.min` this is the full
filename); any reply failing that test is treated as not-found, and a URL
whose direct re-fetch fails and for which no CDN suggestion is accepted
remains in `stillFailedUrls`. -/
theorem claim_C7_cdn_validation :
    (∀ (env : Env) (u text : String), env.cdnText u = Except.ok text →
      ¬ fileNameOf u = "" →
      (strStartsWith (strTrim text) "http" &&
        strContains (strTrim text) (strBeforeFirst (fileNameOf u) ".min")) = true →
      findCdnUrl env u = Except.ok (some (strTrim text))) ∧
    (∀ (env : Env) (u text : String), env.cdnText u = Except.ok text →
      (strStartsWith (strTrim text) "http" &&
        strContains (strTrim text) (strBeforeFirst (fileNameOf u) ".min")) = false →
      findCdnUrl env u = Except.ok none) ∧
    (∀ (env : Env) (failedUrls : List String) (zip : List (String × String))
      (log : List LogEntry) (u : String),
      u ∈ failedUrls →
      (∀ ir, cachedFetch env u ≠ Except.ok ir) →
      (∀ c, findCdnUrl env u ≠ Except.ok (some c)) →
      u ∈ (retryFailedDownloads env failedUrls zip log).stillFailedUrls) := by
  refine ⟨?_, ?_, ?_⟩
  · intro env u text hok hfn hacc
    rw [findCdnUrl]
    simp only [beq_iff_eq, hfn, if_false, hok]
    rw [if_pos hacc]
  · intro env u text hok hacc
    rw [findCdnUrl]
    by_cases hfn : fileNameOf u = ""
    · simp [hfn]
    · simp only [beq_iff_eq, hfn, if_false, hok]
      rw [if_neg (by simp [hacc])]
  · intro env failedUrls zip log u hu hfetch hcdn
    exact retryRun_still_mem env failedUrls ⟨zip, log, []⟩ u hu hfetch hcdn

/-- Witness for the amended C7 at a concrete input: with connection-dead
proxies and an erroring collaborator, the failed URL stays failed. -/
theorem claim_C7_witness :
    "https://a.io/x.js" ∈ (retryFailedDownloads envAllConnFail ["https://a.io/x.js"] []
      []).stillFailedUrls :=
  claim_C7_cdn_validation.2.2 envAllConnFail ["https://a.io/x.js"] [] []
    "https://a.io/x.js" (by decide)
    (fun ir h => Except.noConfusion h)
    (fun c h => Except.noConfusion h)

/-- The archive write of a successful V1 fetch is at the crawl-derived path,
and nothing later in the iteration touches the archive. -/
theorem foldl_v1Enqueue_zip (ini : String) :
    ∀ (rs : List String) (s : V1State),
      ((rs.foldl (v1Enqueue ini) s) : V1State).zipPaths = s.zipPaths := by
  intro rs
  induction rs with
  | nil => intro s; rfl
  | cons r rest ih =>
    intro s
    rw [List.foldl_cons, ih]
    rw [v1Enqueue]
    split <;> rfl

theorem v1ProcessItem_zip_of_success (env : Env) (root cur ini : String)
    (s : V1State) (i : Nat) (r : Resp) (p : UrlParts)
    (hF : cachedFetch env cur = Except.ok (i, r)) (hok : respOkB r = true)
    (hP : urlParse cur = some p) :
    (v1ProcessItem env root cur ini s).zipPaths =
      zipPut s.zipPaths (relPathCrawl p) r.body := by
  rw [v1ProcessItem, hF]
  dsimp only
  rw [if_neg (by simp [hok]), hP]
  dsimp only
  split
  · split
    · simp [foldl_v1Enqueue_zip]
    · simp [foldl_v1Enqueue_zip]
  · rfl

theorem retryProcessOne_zip_of_success (env : Env) (st : RetryState) (u : String)
    (i : Nat) (r : Resp) (p : UrlParts)
    (hF : cachedFetch env u = Except.ok (i, r)) (hok : respOkB r = true)
    (hP : urlParse u = some p) :
    (retryProcessOne env st u).zipPaths =
      zipPut st.zipPaths (relPathRetry p) r.body := by
  rw [retryProcessOne, hF]
  dsimp only
  rw [if_neg (by simp [hok]), hP]

/-- Claim C8 counterexample: a previously failed root-path URL
(`https://cdn.com/`) is stored by the retry pass at `cdn.com.html`, while the
crawl derives `index.html` for the same URL — the retry does not store at
the same derived path; moreover the crawl path is the URL's pathname, which
drops the query (`https://x.com/a.js?v=1` maps to `a.js`, not `a.js?v=1`). -/
theorem claim_C8_counterexample :
    (retryFailedDownloads envC8 ["https://cdn.com/"] []
      [⟨"https://cdn.com/", 0, "Download Failed", "unknown",
        "https://x.com/", 0, true⟩]).zipPaths = [("cdn.com.html", "HTML")] ∧
    (urlParse "https://cdn.com/").map relPathCrawl = some "index.html" ∧
    ¬ (("cdn.com.html" : String) = "index.html") ∧
    (urlParse "https://x.com/a.js?v=1").map relPathCrawl = some "a.js" :=
  ⟨by decide, by decide, by decide, by decide⟩

/-- Claim C8 (amended): the crawl stores a URL's bytes at its pathname with
the leading slash stripped (query and fragment excluded), `index.html` when
that is empty (`https://x.com/` maps to `index.html`, `https://x.com/js/app.js`
to `js/app.js`); a successful retry stores at the same derived path whenever
the stripped pathname is nonempty, but at `hostname + ".html"` when it is
empty. -/
theorem claim_C8_archive_paths :
    ((urlParse "https://x.com/").map relPathCrawl = some "index.html") ∧
    ((urlParse "https://x.com/js/app.js").map relPathCrawl = some "js/app.js") ∧
    (∀ p : UrlParts, ¬ strDrop p.path 1 = "" → relPathRetry p = relPathCrawl p) ∧
    (∀ (env : Env) (root cur ini : String) (s : V1State) (i : Nat) (r : Resp)
      (p : UrlParts), cachedFetch env cur = Except.ok (i, r) → respOkB r = true →
      urlParse cur = some p →
      (v1ProcessItem env root cur ini s).zipPaths =
        zipPut s.zipPaths (relPathCrawl p) r.body) ∧
    (∀ (env : Env) (st : RetryState) (u : String) (i : Nat) (r : Resp)
      (p : UrlParts), cachedFetch env u = Except.ok (i, r) → respOkB r = true →
      urlParse u = some p →
      (retryProcessOne env st u).zipPaths =
        zipPut st.zipPaths (relPathRetry p) r.body) := by
  refine ⟨by decide, by decide, ?_, ?_, ?_⟩
  · intro p hne
    rw [relPathRetry, relPathCrawl, if_neg (by simpa using hne), if_neg (by simpa using hne)]
  · intro env root cur ini s i r p hF hok hP
    exact v1ProcessItem_zip_of_success env root cur ini s i r p hF hok hP
  · intro env st u i r p hF hok hP
    exact retryProcessOne_zip_of_success env st u i r p hF hok hP

/-- Witness for the amended C8 at a concrete input: for a URL with a
nonempty stripped pathname the retry path equals the crawl path, and a
successful crawl fetch stores the body at the crawl path. -/
theorem claim_C8_witness :
    relPathRetry ⟨"https", "x.com", "/js/app.js", "", ""⟩ =
      relPathCrawl ⟨"https", "x.com", "/js/app.js", "", ""⟩ ∧
    (v1ProcessItem envC8 "https://x.com/" "https://x.com/" "Initial Request"
      { queue := [], processed := ["https://x.com/"], networkLog := [],
        failedUrls := [], zipPaths := [], internalLinks := [],
        downloadedCount := 0, fetches := [] }).zipPaths =
      zipPut [] (relPathCrawl ⟨"https", "x.com", "/", "", ""⟩) "HTML" :=
  ⟨claim_C8_archive_paths.2.2.1 ⟨"https", "x.com", "/js/app.js", "", ""⟩ (by decide),
   claim_C8_archive_paths.2.2.2.1 envC8 "https://x.com/" "https://x.com/"
     "Initial Request" _ 0 ⟨200, "OK", "text/html", "HTML"⟩
     ⟨"https", "x.com", "/", "", ""⟩ rfl (by decide) (by decide)⟩

/-! ## V1 crawl invariants (claims C1, C2, C6) -/

/-- Transport success facts: the main-thread chain only ever returns ok
responses (any non-ok response advances to the next proxy). -/
theorem fetchWithProxyGo_ok (env : Env) (url : String) :
    ∀ (n k : Nat) (i : Nat) (r : Resp),
      fetchWithProxyGo env url n k = Except.ok (i, r) → respOkB r = true := by
  intro n
  induction n with
  | zero => intro k i r h; exact absurd h (by rw [fetchWithProxyGo]; simp)
  | succ n ih =>
    intro k i r h
    rw [fetchWithProxyGo] at h
    rcases ho : env.proxy url k with _ | r0
    · rw [ho] at h
      exact ih (k + 1) i r h
    · rw [ho] at h
      dsimp only at h
      by_cases hok : respOkB r0 = true
      · rw [if_pos hok] at h
        injection h with h
        injection h with h1 h2
        rw [← h2]
        exact hok
      · rw [if_neg hok] at h
        exact ih (k + 1) i r h

theorem cachedFetch_ok (env : Env) (url : String) (i : Nat) (r : Resp)
    (h : cachedFetch env url = Except.ok (i, r)) : respOkB r = true :=
  fetchWithProxyGo_ok env url PROXIES.length 0 i r h

theorem v1Enqueue_inv (ini : String) (s : V1State) (res : String) (h : InvV1 s) :
    InvV1 (v1Enqueue ini s res) := by
  obtain ⟨h1, h2, h3, h4⟩ := h
  rw [v1Enqueue]
  by_cases hres : res ∈ s.processed
  · simpa [hres] using ⟨h1, h2, h3, h4⟩
  · rw [if_neg hres]
    refine ⟨?_, ?_, ?_, ?_⟩
    · refine List.Nodup.append h1 (by simp) ?_
      intro a ha hb
      simp only [List.mem_singleton] at hb
      subst hb
      exact hres ha
    · have : s.fetches ++ (s.queue ++ [(res, ini)]).map Prod.fst =
          (s.fetches ++ s.queue.map Prod.fst) ++ [res] := by simp
      rw [this]
      refine List.Nodup.append h2 (by simp) ?_
      intro a ha hb
      simp only [List.mem_singleton] at hb
      subst hb
      rcases List.mem_append.mp ha with hf | hq
      · exact hres (h3 a hf)
      · obtain ⟨q, hqm, hq1⟩ := List.mem_map.mp hq
        exact hres (hq1 ▸ h4 q hqm)
    · intro u hu
      simp only [List.mem_append, List.mem_singleton]
      exact Or.inl (h3 u hu)
    · intro q hq'
      rcases List.mem_append.mp hq' with hq1 | hq2
      · simp only [List.mem_append]
        exact Or.inl (h4 q hq1)
      · simp only [List.mem_singleton] at hq2
        subst hq2
        simp

theorem foldl_v1Enqueue_inv (ini : String) :
    ∀ (rs : List String) (s : V1State), InvV1 s →
      InvV1 (rs.foldl (v1Enqueue ini) s) := by
  intro rs
  induction rs with
  | nil => intro s h; exact h
  | cons r rest ih =>
    intro s h
    exact ih _ (v1Enqueue_inv ini s r h)

theorem v1CatchPath_inv (cur ini : String) (s : V1State) (h : InvV1 s) :
    InvV1 (v1CatchPath cur ini s) := h

theorem v1ProcessItem_inv (env : Env) (root cur ini : String) (s : V1State)
    (hproc : s.processed.Nodup)
    (hnodup : (s.fetches ++ cur :: s.queue.map Prod.fst).Nodup)
    (hfet : ∀ u ∈ s.fetches, u ∈ s.processed)
    (hcur : cur ∈ s.processed)
    (hq : ∀ q ∈ s.queue, q.1 ∈ s.processed) :
    InvV1 (v1ProcessItem env root cur ini s) := by
  have hbase : InvV1 { s with fetches := s.fetches ++ [cur] } := by
    refine ⟨hproc, ?_, ?_, hq⟩
    · have : (s.fetches ++ [cur]) ++ s.queue.map Prod.fst =
          s.fetches ++ cur :: s.queue.map Prod.fst := by simp
      simpa [this] using hnodup
    · intro u hu
      rcases List.mem_append.mp hu with h1 | h2
      · exact hfet u h1
      · simp only [List.mem_singleton] at h2
        subst h2
        exact hcur
  rw [v1ProcessItem]
  rcases hF : cachedFetch env cur with e | ⟨i, r⟩
  · exact v1CatchPath_inv _ _ _ hbase
  · dsimp only
    have hmid : InvV1 { s with
        fetches := s.fetches ++ [cur],
        networkLog := s.networkLog ++
          [⟨cur, r.status, r.statusText, ctOr r.contentType "application/octet-stream",
            ini, r.body.data.length, !respOkB r⟩] } := hbase
    by_cases hok : (!respOkB r) = true
    · rw [if_pos hok]
      exact v1CatchPath_inv _ _ _ hmid
    · rw [if_neg hok]
      rcases hP : urlParse cur with _ | p
      · exact v1CatchPath_inv _ _ _ hmid
      · dsimp only
        have hzip : InvV1 { s with
            fetches := s.fetches ++ [cur],
            networkLog := s.networkLog ++
              [⟨cur, r.status, r.statusText, ctOr r.contentType "application/octet-stream",
                ini, r.body.data.length, !respOkB r⟩],
            zipPaths := zipPut s.zipPaths (relPathCrawl p) r.body } := hmid
        split
        · split
          · exact (foldl_v1Enqueue_inv cur _ _ hzip : InvV1 _)
          · exact (foldl_v1Enqueue_inv cur _ _ hzip : InvV1 _)
        · exact hzip

theorem v1Loop_inv (env : Env) (root : String) :
    ∀ (fuel : Nat) (s r : V1State), InvV1 s →
      v1Loop env root fuel s = some r → InvV1 r := by
  intro fuel
  induction fuel with
  | zero =>
    intro s r h hr
    rw [v1Loop] at hr
    split at hr
    · injection hr with hr
      subst hr
      exact h
    · exact absurd hr (by simp)
  | succ fuel ih =>
    intro s r h hr
    rw [v1Loop] at hr
    rcases hque : s.queue with _ | ⟨⟨u, ini⟩, rest⟩
    · rw [hque] at hr
      injection hr with hr
      subst hr
      exact h
    · rw [hque] at hr
      obtain ⟨h1, h2, h3, h4⟩ := h
      refine ih _ r (v1ProcessItem_inv env root u ini { s with queue := rest }
        h1 ?_ h3 ?_ ?_) hr
      · simpa [hque] using h2
      · exact h4 (u, ini) (by rw [hque]; simp)
      · intro q hq'
        exact h4 q (by rw [hque]; simp [hq'])

theorem v1Loop_some_queue_nil (env : Env) (root : String) :
    ∀ (fuel : Nat) (s r : V1State), v1Loop env root fuel s = some r → r.queue = [] := by
  intro fuel
  induction fuel with
  | zero =>
    intro s r hr
    rw [v1Loop] at hr
    split at hr
    · rename_i hq
      injection hr with hr
      subst hr
      simpa using hq
    · exact absurd hr (by simp)
  | succ fuel ih =>
    intro s r hr
    rw [v1Loop] at hr
    rcases hque : s.queue with _ | ⟨⟨u, ini⟩, rest⟩
    · rw [hque] at hr
      injection hr with hr
      subst hr
      exact hque
    · rw [hque] at hr
      exact ih _ r hr

/-- Any completed V1 run satisfies the dedup invariant. -/
theorem v1Run_inv (env : Env) (root : String) (fuel : Nat) (r : V1State)
    (h : v1Run env root fuel = some r) : InvV1 r := by
  refine v1Loop_inv env root fuel _ r ⟨by simp, by simp, ?_, ?_⟩ h
  · intro u hu
    simpa using hu
  · intro q hq
    simp only [List.mem_singleton] at hq
    subst hq
    simp

/-- A V1 run that completes has fetched each URL at most once and entered
each URL into the processed set at most once. -/
theorem v1Run_nodup (env : Env) (root : String) (fuel : Nat) (r : V1State)
    (h : v1Run env root fuel = some r) :
    r.fetches.Nodup ∧ r.processed.Nodup := by
  obtain ⟨h1, h2, _, _⟩ := v1Run_inv env root fuel r h
  have hq := v1Loop_some_queue_nil env root fuel _ r h
  rw [hq] at h2
  simp only [List.map_nil, List.append_nil] at h2
  exact ⟨h2, h1⟩

theorem foldl_v1Enqueue_log (ini : String) :
    ∀ (rs : List String) (s : V1State),
      ((rs.foldl (v1Enqueue ini) s).networkLog = s.networkLog ∧
       (rs.foldl (v1Enqueue ini) s).fetches = s.fetches) := by
  intro rs
  induction rs with
  | nil => intro s; exact ⟨rfl, rfl⟩
  | cons r rest ih =>
    intro s
    rw [List.foldl_cons]
    constructor
    · exact (ih _).1.trans (by rw [v1Enqueue]; split <;> rfl)
    · exact (ih _).2.trans (by rw [v1Enqueue]; split <;> rfl)

theorem foldl_v1Enqueue_queue_parse (ini : String) :
    ∀ (rs : List String) (s : V1State),
      (∀ u ∈ rs, (urlParse u).isSome = true) →
      (∀ q ∈ s.queue, (urlParse q.1).isSome = true) →
      (∀ q ∈ (rs.foldl (v1Enqueue ini) s).queue, (urlParse q.1).isSome = true) := by
  intro rs
  induction rs with
  | nil => intro s _ hq; exact hq
  | cons r rest ih =>
    intro s hrs hq
    rw [List.foldl_cons]
    refine ih _ (fun u hu => hrs u (by simp [hu])) ?_
    rw [v1Enqueue]
    split
    · exact hq
    · intro q hq'
      rcases List.mem_append.mp hq' with h1 | h2
      · exact hq q h1
      · simp only [List.mem_singleton] at h2
        subst h2
        exact hrs r (by simp)

theorem v1ProcessItem_loginv (env : Env) (root cur ini : String) (s : V1State)
    (hWF : EnvWF env)
    (hparse : (urlParse cur).isSome = true)
    (hcurfet : cur ∉ s.fetches)
    (hlog1 : (s.networkLog.map LogEntry.url).Nodup)
    (hlog2 : ∀ e ∈ s.networkLog, e.url ∈ s.fetches)
    (hq : ∀ q ∈ s.queue, (urlParse q.1).isSome = true) :
    LogInvV1 (v1ProcessItem env root cur ini s) := by
  have hpush : ∀ (e0 : LogEntry), e0.url = cur →
      ((s.networkLog ++ [e0]).map LogEntry.url).Nodup ∧
      (∀ e ∈ s.networkLog ++ [e0], e.url ∈ s.fetches ++ [cur]) := by
    intro e0 he0
    constructor
    · rw [List.map_append]
      refine List.Nodup.append hlog1 (by simp) ?_
      intro a ha hb
      simp only [List.map_cons, List.map_nil, List.mem_singleton, he0] at hb
      subst hb
      obtain ⟨e, hem, heu⟩ := List.mem_map.mp ha
      exact hcurfet (heu ▸ hlog2 e hem)
    · intro e he
      rcases List.mem_append.mp he with h1 | h2
      · exact List.mem_append.mpr (Or.inl (hlog2 e h1))
      · simp only [List.mem_singleton] at h2
        subst h2
        simp [he0]
  rw [v1ProcessItem]
  rcases hF : cachedFetch env cur with e | ⟨i, r⟩
  · rw [v1CatchPath]
    refine ⟨(hpush _ rfl).1, (hpush _ rfl).2, hq⟩
  · dsimp only
    have hok : respOkB r = true := cachedFetch_ok env cur i r hF
    rw [if_neg (by simp [hok])]
    rcases hP : urlParse cur with _ | p
    · rw [hP] at hparse
      simp at hparse
    · dsimp only
      have h1 := (hpush ⟨cur, r.status, r.statusText,
        ctOr r.contentType "application/octet-stream", ini,
        r.body.data.length, !respOkB r⟩ rfl).1
      have h2 := (hpush ⟨cur, r.status, r.statusText,
        ctOr r.contentType "application/octet-stream", ini,
        r.body.data.length, !respOkB r⟩ rfl).2
      split
      · rename_i hct
        have hfold := foldl_v1Enqueue_log cur
          (env.discover (ctOr r.contentType "application/octet-stream") r.body cur)
          { s with
            fetches := s.fetches ++ [cur],
            networkLog := s.networkLog ++
              [⟨cur, r.status, r.statusText, ctOr r.contentType "application/octet-stream",
                ini, r.body.data.length, !respOkB r⟩],
            zipPaths := zipPut s.zipPaths (relPathCrawl p) r.body }
        have hqp := foldl_v1Enqueue_queue_parse cur
          (env.discover (ctOr r.contentType "application/octet-stream") r.body cur)
          { s with
            fetches := s.fetches ++ [cur],
            networkLog := s.networkLog ++
              [⟨cur, r.status, r.statusText, ctOr r.contentType "application/octet-stream",
                ini, r.body.data.length, !respOkB r⟩],
            zipPaths := zipPut s.zipPaths (relPathCrawl p) r.body }
          (fun u hu => hWF _ _ _ u hu) hq
        split
        · exact ⟨by rw [hfold.1]; exact h1, by rw [hfold.1, hfold.2]; exact h2, hqp⟩
        · exact ⟨by rw [hfold.1]; exact h1, by rw [hfold.1, hfold.2]; exact h2, hqp⟩
      · exact ⟨h1, h2, hq⟩

theorem v1Loop_loginv (env : Env) (root : String) (hWF : EnvWF env) :
    ∀ (fuel : Nat) (s r : V1State), InvV1 s → LogInvV1 s →
      v1Loop env root fuel s = some r → LogInvV1 r := by
  intro fuel
  induction fuel with
  | zero =>
    intro s r _ hL hr
    rw [v1Loop] at hr
    split at hr
    · injection hr with hr
      subst hr
      exact hL
    · exact absurd hr (by simp)
  | succ fuel ih =>
    intro s r hI hL hr
    rw [v1Loop] at hr
    rcases hque : s.queue with _ | ⟨⟨u, ini⟩, rest⟩
    · rw [hque] at hr
      injection hr with hr
      subst hr
      exact hL
    · rw [hque] at hr
      obtain ⟨h1, h2, h3, h4⟩ := hI
      obtain ⟨hL1, hL2, hL3⟩ := hL
      have hcurfet : u ∉ s.fetches := by
        rw [hque] at h2
        simp only [List.map_cons] at h2
        intro hc
        exact (List.disjoint_of_nodup_append h2) hc (by simp)
      refine ih _ r
        (v1ProcessItem_inv env root u ini { s with queue := rest } h1
          (by simpa [hque] using h2)
          h3 (h4 (u, ini) (by rw [hque]; simp))
          (fun q hq' => h4 q (by rw [hque]; simp [hq'])))
        (v1ProcessItem_loginv env root u ini { s with queue := rest } hWF
          (hL3 (u, ini) (by rw [hque]; simp)) hcurfet hL1 hL2
          (fun q hq' => hL3 q (by rw [hque]; simp [hq'])))
        hr

/-- Under a well-formed extractor and a parseable root URL, a completed V1
run's network log has at most one entry per URL. -/
theorem v1Run_log_nodup (env : Env) (root : String) (fuel : Nat) (r : V1State)
    (hWF : EnvWF env) (hroot : (urlParse root).isSome = true)
    (h : v1Run env root fuel = some r) :
    (r.networkLog.map LogEntry.url).Nodup := by
  refine (v1Loop_loginv env root hWF fuel _ r
    ⟨by simp, by simp, by simp, ?_⟩ ⟨by simp, by simp, ?_⟩ h).1
  · intro q hq
    simp only [List.mem_singleton] at hq
    subst hq
    simp
  · intro q hq
    simp only [List.mem_singleton] at hq
    subst hq
    exact hroot

/-- V1 root-fetch failure: when every proxy fails for the root URL, the V1
engine does NOT reject — the single iteration lands in the catch block and
the run returns a result with the root recorded as failed. -/
theorem v1Run_root_fail (env : Env) (root : String) (fuel : Nat)
    (h : ∀ i, i < PROXIES.length → advanceOutcomeB (env.proxy root i) = true) :
    v1Run env root (fuel + 1) = some
      { queue := [], processed := [root],
        networkLog := [⟨root, 0, "Download Failed", "unknown", "Initial Request", 0, true⟩],
        failedUrls := [root], zipPaths := [], internalLinks := [],
        downloadedCount := 0, fetches := [root] } := by
  have hf : cachedFetch env root = Except.error "All proxies failed." :=
    fetchWithProxy_exhaust env root h
  rw [v1Run, v1Loop]
  dsimp only
  rw [v1ProcessItem, hf]
  dsimp only
  rw [v1CatchPath]
  dsimp only
  cases fuel with
  | zero => rw [v1Loop]; simp
  | succ fuel => rw [v1Loop]; simp

/-! ## V2 invariants (claims C2, C6) -/

theorem updateFirstLog_map_url (u : String) (f : LogEntry → LogEntry)
    (hf : ∀ e, (f e).url = e.url) :
    ∀ l : List LogEntry,
      (updateFirstLog u f l).map LogEntry.url = l.map LogEntry.url := by
  intro l
  induction l with
  | nil => rfl
  | cons e rest ih =>
    rw [updateFirstLog]
    by_cases h : e.url == u
    · simp [h, hf]
    · simp [h, ih]

theorem updateFirstLog_mem_url (u : String) (f : LogEntry → LogEntry)
    (hf : ∀ e, (f e).url = e.url) :
    ∀ (l : List LogEntry) (e' : LogEntry), e' ∈ updateFirstLog u f l →
      ∃ e ∈ l, e'.url = e.url := by
  intro l
  induction l with
  | nil => intro e' h; simp [updateFirstLog] at h
  | cons e rest ih =>
    intro e' h
    rw [updateFirstLog] at h
    by_cases h0 : e.url == u
    · rw [if_pos h0] at h
      rcases List.mem_cons.mp h with rfl | hmem
      · exact ⟨e, by simp, hf e⟩
      · exact ⟨e', by simp [hmem], rfl⟩
    · rw [if_neg h0] at h
      rcases List.mem_cons.mp h with rfl | hmem
      · exact ⟨e', by simp, rfl⟩
      · obtain ⟨e0, he0, hu0⟩ := ih e' hmem
        exact ⟨e0, by simp [he0], hu0⟩

theorem checkCompletion_inv {s : V2State} (h : InvV2 s) :
    InvV2 (checkCompletion s) := by
  rw [checkCompletion]
  split
  · exact h
  · exact h

theorem assignWork_inv {s : V2State} (h : InvV2 s) : InvV2 (assignWork s) := by
  obtain ⟨h1, h2, h3, h4, h5, h6⟩ := h
  rcases hq : s.queue with _ | ⟨hd, rest⟩
  · rw [assignWork, hq]
    rw [hq] at h2 h4
    refine checkCompletion_inv ⟨h1, by simpa using h2, h3, ?_, h5, h6⟩
    intro q hq'
    simp at hq'
  · obtain ⟨u, ini⟩ := hd
    rw [assignWork, hq]
    dsimp only
    rw [hq] at h2 h4
    refine ⟨h1, ?_, ?_, ?_, h5, h6⟩
    · have heq : (s.fetches ++ [u]) ++ rest.map Prod.fst =
          s.fetches ++ (u :: rest.map Prod.fst) := by simp
      rw [heq]
      simpa using h2
    · intro v hv
      rcases List.mem_append.mp hv with hv1 | hv2
      · exact h3 v hv1
      · simp only [List.mem_singleton] at hv2
        rw [hv2]
        exact h4 (u, ini) (by simp)
    · intro q hq'
      exact h4 q (by simp [hq'])

theorem handlerEnqueue_inv (ini : String) (s : V2State) (res : String)
    (h : InvV2 s) : InvV2 (handlerEnqueue ini s res) := by
  obtain ⟨h1, h2, h3, h4, h5, h6⟩ := h
  rw [handlerEnqueue]
  by_cases hres : res ∈ s.processed
  · rw [if_pos hres]
    exact ⟨h1, h2, h3, h4, h5, h6⟩
  · rw [if_neg hres]
    have hmid : InvV2 { s with
        processed := s.processed ++ [res],
        queue := s.queue ++ [(res, ini)],
        networkLog := s.networkLog ++ [⟨res, 0, "Queued", "unknown", ini, 0, false⟩] } := by
      refine ⟨?_, ?_, ?_, ?_, ?_, ?_⟩
      · refine List.Nodup.append h1 (by simp) ?_
        intro a ha hb
        simp only [List.mem_singleton] at hb
        subst hb
        exact hres ha
      · have : s.fetches ++ ((s.queue ++ [(res, ini)]).map Prod.fst) =
            (s.fetches ++ s.queue.map Prod.fst) ++ [res] := by simp
        rw [this]
        refine List.Nodup.append h2 (by simp) ?_
        intro a ha hb
        simp only [List.mem_singleton] at hb
        subst hb
        rcases List.mem_append.mp ha with hf | hq
        · exact hres (h3 a hf)
        · obtain ⟨q, hqm, hq1⟩ := List.mem_map.mp hq
          exact hres (hq1 ▸ h4 q hqm)
      · intro v hv
        exact List.mem_append.mpr (Or.inl (h3 v hv))
      · intro q hq'
        rcases List.mem_append.mp hq' with hq1 | hq2
        · exact List.mem_append.mpr (Or.inl (h4 q hq1))
        · simp only [List.mem_singleton] at hq2
          subst hq2
          simp
      · rw [List.map_append]
        refine List.Nodup.append h5 (by simp) ?_
        intro a ha hb
        simp only [List.map_cons, List.map_nil, List.mem_singleton] at hb
        subst hb
        obtain ⟨e, hem, heu⟩ := List.mem_map.mp ha
        exact hres (heu ▸ h6 e hem)
      · intro e he
        rcases List.mem_append.mp he with he1 | he2
        · exact List.mem_append.mpr (Or.inl (h6 e he1))
        · simp only [List.mem_singleton] at he2
          subst he2
          simp
    dsimp only
    split
    · exact assignWork_inv hmid
    · exact hmid

theorem foldl_handlerEnqueue_inv (ini : String) :
    ∀ (rs : List String) (s : V2State), InvV2 s →
      InvV2 (rs.foldl (handlerEnqueue ini) s) := by
  intro rs
  induction rs with
  | nil => intro s h; exact h
  | cons r rest ih => intro s h; exact ih _ (handlerEnqueue_inv ini s r h)

theorem initialEnqueue_inv (ini : String) (s : V2State) (res : String)
    (h : InvV2 s) : InvV2 (initialEnqueue ini s res) := by
  obtain ⟨h1, h2, h3, h4, h5, h6⟩ := h
  rw [initialEnqueue]
  by_cases hres : res ∈ s.processed
  · rw [if_pos hres]
    exact ⟨h1, h2, h3, h4, h5, h6⟩
  · rw [if_neg hres]
    refine ⟨?_, ?_, ?_, ?_, ?_, ?_⟩
    · refine List.Nodup.append h1 (by simp) ?_
      intro a ha hb
      simp only [List.mem_singleton] at hb
      subst hb
      exact hres ha
    · have : s.fetches ++ ((s.queue ++ [(res, ini)]).map Prod.fst) =
          (s.fetches ++ s.queue.map Prod.fst) ++ [res] := by simp
      rw [this]
      refine List.Nodup.append h2 (by simp) ?_
      intro a ha hb
      simp only [List.mem_singleton] at hb
      subst hb
      rcases List.mem_append.mp ha with hf | hq
      · exact hres (h3 a hf)
      · obtain ⟨q, hqm, hq1⟩ := List.mem_map.mp hq
        exact hres (hq1 ▸ h4 q hqm)
    · intro v hv
      exact List.mem_append.mpr (Or.inl (h3 v hv))
    · intro q hq'
      rcases List.mem_append.mp hq' with hq1 | hq2
      · exact List.mem_append.mpr (Or.inl (h4 q hq1))
      · simp only [List.mem_singleton] at hq2
        subst hq2
        simp
    · rw [List.map_append]
      refine List.Nodup.append h5 (by simp) ?_
      intro a ha hb
      simp only [List.map_cons, List.map_nil, List.mem_singleton] at hb
      subst hb
      obtain ⟨e, hem, heu⟩ := List.mem_map.mp ha
      exact hres (heu ▸ h6 e hem)
    · intro e he
      rcases List.mem_append.mp he with he1 | he2
      · exact List.mem_append.mpr (Or.inl (h6 e he1))
      · simp only [List.mem_singleton] at he2
        subst he2
        simp

theorem foldl_initialEnqueue_inv (ini : String) :
    ∀ (rs : List String) (s : V2State), InvV2 s →
      InvV2 (rs.foldl (initialEnqueue ini) s) := by
  intro rs
  induction rs with
  | nil => intro s h; exact h
  | cons r rest ih => intro s h; exact ih _ (initialEnqueue_inv ini s r h)

theorem applyAssignN_inv : ∀ (n : Nat) {s : V2State}, InvV2 s →
    InvV2 (applyAssignN n s) := by
  intro n
  induction n with
  | zero => intro s h; exact h
  | succ n ih => intro s h; exact ih (assignWork_inv h)

theorem updateFirstLog_loginv {s : V2State} (u : String) (f : LogEntry → LogEntry)
    (hf : ∀ e, (f e).url = e.url)
    (h5 : (s.networkLog.map LogEntry.url).Nodup)
    (h6 : ∀ e ∈ s.networkLog, e.url ∈ s.processed) :
    ((updateFirstLog u f s.networkLog).map LogEntry.url).Nodup ∧
    (∀ e ∈ updateFirstLog u f s.networkLog, e.url ∈ s.processed) := by
  constructor
  · rw [updateFirstLog_map_url u f hf]
    exact h5
  · intro e he
    obtain ⟨e0, he0, hu0⟩ := updateFirstLog_mem_url u f hf s.networkLog e he
    rw [hu0]
    exact h6 e0 he0

theorem deliverStep_inv (env : Env) (u : String) {s : V2State} (h : InvV2 s) :
    InvV2 (deliverStep env u s) := by
  obtain ⟨h1, h2, h3, h4, h5, h6⟩ := h
  rw [deliverStep]
  rcases hW : workerFetchWithProxy env u with e | ⟨i, r⟩
  · dsimp only
    obtain ⟨h5', h6'⟩ := updateFirstLog_loginv (s := s) u workerErrorUpdate
      (fun e => rfl) h5 h6
    exact assignWork_inv ⟨h1, h2, h3, h4, h5', h6'⟩
  · dsimp only
    obtain ⟨h5', h6'⟩ := updateFirstLog_loginv (s := s) u
      (workerSuccessUpdate r (ctOr r.contentType "application/octet-stream"))
      (fun e => rfl) h5 h6
    have hmid : InvV2 { s with
        activeWorkers := s.activeWorkers - 1, inFlight := s.inFlight.erase u,
        networkLog := updateFirstLog u
          (workerSuccessUpdate r (ctOr r.contentType "application/octet-stream"))
          s.networkLog } :=
      ⟨h1, h2, h3, h4, h5', h6'⟩
    split
    · split
      · exact hmid
      · split
        · exact hmid
        · exact assignWork_inv hmid
    · exact assignWork_inv hmid

theorem resumeStep_inv (i : Nat) {s : V2State} (h : InvV2 s) :
    InvV2 (resumeStep i s) := by
  obtain ⟨h1, h2, h3, h4, h5, h6⟩ := h
  rw [resumeStep]
  rcases hS : s.suspended.get? i with _ | susp
  · exact ⟨h1, h2, h3, h4, h5, h6⟩
  · dsimp only
    have hmid : InvV2 { s with suspended := s.suspended.eraseIdx i } :=
      ⟨h1, h2, h3, h4, h5, h6⟩
    exact assignWork_inv (foldl_handlerEnqueue_inv susp.url susp.newResources _ hmid)

theorem v2Step_inv (env : Env) {s s' : V2State} (hstep : V2Step env s s')
    (h : InvV2 s) : InvV2 s' := by
  cases hstep with
  | deliver u h1 h2 => exact deliverStep_inv env u h
  | resume i hi => exact resumeStep_inv i h

theorem v2Reach_inv (env : Env) {s0 s : V2State} (hr : V2Reach env s0 s)
    (h : InvV2 s0) : InvV2 s := by
  induction hr with
  | refl => exact h
  | tail _ hstep ih => exact v2Step_inv env hstep ih

theorem v2Init_inv (env : Env) (rootUrl : String) (s0 : V2State)
    (h : v2Init env rootUrl = Except.ok s0) : InvV2 s0 := by
  rw [v2Init] at h
  rcases hF : cachedFetch env rootUrl with e | ⟨i, r⟩
  · rw [hF] at h
    exact absurd h (by simp)
  · rw [hF] at h
    dsimp only at h
    by_cases hok : (!respOkB r) = true
    · rw [if_pos hok] at h
      exact absurd h (by simp)
    · rw [if_neg hok] at h
      rcases hP : urlParse rootUrl with _ | p
      · rw [hP] at h
        exact absurd h (by simp)
      · rw [hP] at h
        dsimp only at h
        injection h with h
        subst h
        refine applyAssignN_inv _ ?_
        have hbase : InvV2
            { queue := [], processed := [rootUrl], activeWorkers := 0,
              idleWorkers := if env.hw == 0 then 4 else env.hw, inFlight := [],
              suspended := [],
              networkLog := [⟨rootUrl, r.status, r.statusText, ctOr r.contentType "text/html",
                "Initial Request", r.body.data.length, !respOkB r⟩],
              failedUrls := [], downloadedCount := 1,
              zipPaths := [(relPathCrawl p, r.body)], internalLinks := [],
              resolved := none, fetches := [rootUrl] } := by
          refine ⟨by simp, by simp, ?_, by simp, by simp, ?_⟩
          · intro v hv
            simpa using hv
          · intro e he
            simp only [List.mem_singleton] at he
            subst he
            simp
        have hfold := foldl_initialEnqueue_inv rootUrl
          (env.discover (ctOr r.contentType "text/html") r.body rootUrl) _ hbase
        exact ⟨hfold.1, hfold.2.1, hfold.2.2.1, hfold.2.2.2.1, hfold.2.2.2.2.1,
          hfold.2.2.2.2.2⟩

/-! ## Resolution-time join condition (claim C3) -/

theorem checkCompletion_resolved_some {s : V2State} {snap : V2Snapshot}
    (h : s.resolved = some snap) : (checkCompletion s).resolved = some snap := by
  rw [checkCompletion]
  split
  · rw [h]
  · exact h

theorem assignWork_resolved_some {s : V2State} {snap : V2Snapshot}
    (h : s.resolved = some snap) : (assignWork s).resolved = some snap := by
  rw [assignWork]
  rcases hq : s.queue with _ | ⟨⟨u, ini⟩, rest⟩
  · exact checkCompletion_resolved_some h
  · exact h

theorem handlerEnqueue_resolved_some (ini : String) (s : V2State) (res : String)
    {snap : V2Snapshot} (h : s.resolved = some snap) :
    (handlerEnqueue ini s res).resolved = some snap := by
  rw [handlerEnqueue]
  split
  · exact h
  · dsimp only
    split
    · exact assignWork_resolved_some h
    · exact h

theorem foldl_handlerEnqueue_resolved_some (ini : String) :
    ∀ (rs : List String) (s : V2State) {snap : V2Snapshot}, s.resolved = some snap →
      (rs.foldl (handlerEnqueue ini) s).resolved = some snap := by
  intro rs
  induction rs with
  | nil => intro s snap h; exact h
  | cons r rest ih =>
    intro s snap h
    exact ih _ (handlerEnqueue_resolved_some ini s r h)

/-- The join condition at resolution time: whenever `checkCompletion`
freshly resolves, the snapshot records an empty queue and zero outstanding
worker fetches. -/
theorem checkCompletion_resolveOK {s : V2State} {snap : V2Snapshot}
    (h0 : s.resolved = none) (h1 : (checkCompletion s).resolved = some snap) :
    snap.queueAtResolve = [] ∧ snap.activeAtResolve = 0 := by
  rw [checkCompletion] at h1
  split at h1
  · rename_i hguard
    rw [h0] at h1
    dsimp only at h1
    injection h1 with h1
    subst h1
    simp only [Bool.and_eq_true, List.isEmpty_iff, beq_iff_eq] at hguard
    exact ⟨hguard.1, hguard.2⟩
  · rw [h0] at h1
    exact absurd h1 (by simp)

theorem assignWork_resolveOK {s : V2State} {snap : V2Snapshot}
    (h0 : s.resolved = none) (h1 : (assignWork s).resolved = some snap) :
    snap.queueAtResolve = [] ∧ snap.activeAtResolve = 0 := by
  rw [assignWork] at h1
  rcases hq : s.queue with _ | ⟨⟨u, ini⟩, rest⟩
  · rw [hq] at h1
    dsimp only at h1
    refine checkCompletion_resolveOK ?_ h1
    exact h0
  · rw [hq] at h1
    dsimp only at h1
    rw [h0] at h1
    exact absurd h1 (by simp)

theorem handlerEnqueue_resolveOK (ini : String) (s : V2State) (res : String)
    {snap : V2Snapshot} (h0 : s.resolved = none)
    (h1 : (handlerEnqueue ini s res).resolved = some snap) :
    snap.queueAtResolve = [] ∧ snap.activeAtResolve = 0 := by
  rw [handlerEnqueue] at h1
  split at h1
  · rw [h0] at h1
    exact absurd h1 (by simp)
  · dsimp only at h1
    split at h1
    · refine assignWork_resolveOK ?_ h1
      exact h0
    · rw [h0] at h1
      exact absurd h1 (by simp)

theorem foldl_handlerEnqueue_resolveOK (ini : String) :
    ∀ (rs : List String) (s : V2State) {snap : V2Snapshot}, s.resolved = none →
      ((rs.foldl (handlerEnqueue ini) s).resolved = some snap) →
      snap.queueAtResolve = [] ∧ snap.activeAtResolve = 0 := by
  intro rs
  induction rs with
  | nil =>
    intro s snap h0 h1
    rw [List.foldl_nil] at h1
    rw [h0] at h1
    exact absurd h1 (by simp)
  | cons r rest ih =>
    intro s snap h0 h1
    rw [List.foldl_cons] at h1
    rcases hs1 : (handlerEnqueue ini s r).resolved with _ | snap'
    · exact ih _ hs1 h1
    · have hstable := foldl_handlerEnqueue_resolved_some ini rest _ hs1
      rw [h1] at hstable
      injection hstable with hstable
      subst hstable
      exact handlerEnqueue_resolveOK ini s r h0 hs1

theorem deliverStep_resolveOK (env : Env) (u : String) {s : V2State}
    {snap : V2Snapshot} (h0 : s.resolved = none)
    (h1 : (deliverStep env u s).resolved = some snap) :
    snap.queueAtResolve = [] ∧ snap.activeAtResolve = 0 := by
  rw [deliverStep] at h1
  rcases hW : workerFetchWithProxy env u with e | ⟨i, r⟩
  · rw [hW] at h1
    dsimp only at h1
    refine assignWork_resolveOK ?_ h1
    exact h0
  · rw [hW] at h1
    dsimp only at h1
    split at h1
    · split at h1
      · rw [h0] at h1
        exact absurd h1 (by simp)
      · split at h1
        · rw [h0] at h1
          exact absurd h1 (by simp)
        · refine assignWork_resolveOK ?_ h1
          exact h0
    · refine assignWork_resolveOK ?_ h1
      exact h0

theorem resumeStep_resolveOK (i : Nat) {s : V2State} {snap : V2Snapshot}
    (h0 : s.resolved = none) (h1 : (resumeStep i s).resolved = some snap) :
    snap.queueAtResolve = [] ∧ snap.activeAtResolve = 0 := by
  rw [resumeStep] at h1
  rcases hS : s.suspended.get? i with _ | susp
  · rw [hS] at h1
    rw [h0] at h1
    exact absurd h1 (by simp)
  · rw [hS] at h1
    dsimp only at h1
    rcases hf : (susp.newResources.foldl (handlerEnqueue susp.url)
        { s with suspended := s.suspended.eraseIdx i }).resolved with _ | snap'
    · refine assignWork_resolveOK (s := _) ?_ h1
      exact hf
    · have h2 := @assignWork_resolved_some
        { (susp.newResources.foldl (handlerEnqueue susp.url)
          { s with suspended := s.suspended.eraseIdx i }) with
          downloadedCount := (susp.newResources.foldl (handlerEnqueue susp.url)
            { s with suspended := s.suspended.eraseIdx i }).downloadedCount + 1 }
        snap' hf
      rw [h1] at h2
      injection h2 with h2
      subst h2
      refine foldl_handlerEnqueue_resolveOK susp.url susp.newResources _ ?_ hf
      exact h0

theorem applyAssignN_resolveOK :
    ∀ (n : Nat) {s : V2State} {snap : V2Snapshot}, s.resolved = none →
      (applyAssignN n s).resolved = some snap →
      snap.queueAtResolve = [] ∧ snap.activeAtResolve = 0 := by
  intro n
  induction n with
  | zero =>
    intro s snap h0 h1
    rw [applyAssignN] at h1
    rw [h0] at h1
    exact absurd h1 (by simp)
  | succ n ih =>
    intro s snap h0 h1
    rw [applyAssignN] at h1
    rcases hs1 : (assignWork s).resolved with _ | snap'
    · exact ih hs1 h1
    · have hstable : ∀ (m : Nat) (t : V2State), t.resolved = some snap' →
          (applyAssignN m t).resolved = some snap' := by
        intro m
        induction m with
        | zero => intro t ht; exact ht
        | succ m ihm => intro t ht; exact ihm _ (assignWork_resolved_some ht)
      have h2 := hstable n _ hs1
      rw [h1] at h2
      injection h2 with h2
      subst h2
      exact assignWork_resolveOK h0 hs1

theorem foldl_initialEnqueue_resolved (ini : String) :
    ∀ (rs : List String) (s : V2State),
      (rs.foldl (initialEnqueue ini) s).resolved = s.resolved := by
  intro rs
  induction rs with
  | nil => intro s; rfl
  | cons r rest ih =>
    intro s
    rw [List.foldl_cons, ih]
    rw [initialEnqueue]
    split <;> rfl

theorem v2Init_resolveOK (env : Env) (rootUrl : String) (s0 : V2State)
    (snap : V2Snapshot) (h : v2Init env rootUrl = Except.ok s0)
    (h1 : s0.resolved = some snap) :
    snap.queueAtResolve = [] ∧ snap.activeAtResolve = 0 := by
  rw [v2Init] at h
  rcases hF : cachedFetch env rootUrl with e | ⟨i, r⟩
  · rw [hF] at h
    exact absurd h (by simp)
  · rw [hF] at h
    dsimp only at h
    by_cases hok : (!respOkB r) = true
    · rw [if_pos hok] at h
      exact absurd h (by simp)
    · rw [if_neg hok] at h
      rcases hP : urlParse rootUrl with _ | p
      · rw [hP] at h
        exact absurd h (by simp)
      · rw [hP] at h
        dsimp only at h
        injection h with h
        subst h
        refine applyAssignN_resolveOK _ ?_ h1
        exact foldl_initialEnqueue_resolved rootUrl _ _

theorem v2Step_resolveOK (env : Env) {s s' : V2State} {snap : V2Snapshot}
    (hstep : V2Step env s s') (h0 : s.resolved = none)
    (h1 : s'.resolved = some snap) :
    snap.queueAtResolve = [] ∧ snap.activeAtResolve = 0 := by
  cases hstep with
  | deliver u hin hnone => exact deliverStep_resolveOK env u h0 h1
  | resume i hi => exact resumeStep_resolveOK i h0 h1

/-! ## Claims C1, C2, C3, C6 -/

/-- Claim C1 counterexample: with every proxy failing to connect for the
root, the sequential V1 engine does not reject — it returns a result object whose `failedUrls` is exactly the root URL. -/
theorem claim_C1_counterexample :
    (v1Run envAllConnFail "https://r.io/" 1).isSome = true ∧
    (v1Run envAllConnFail "https://r.io/" 1).map V1State.failedUrls =
      some ["https://r.io/"] :=
  ⟨rfl, rfl⟩

/-- Claim C1 (amended): only the parallel V2 mode treats a root-fetch
failure after all proxies as fatal — `runWorkerDownload` rejects with the
transport error and produces no result object; the sequential V1 mode
catches the failure, records the root in `failedUrls` with a zero-status log
entry, and still returns a result object. -/
theorem claim_C1_root_failure :
    (∀ (env : Env) (root : String),
      (∀ i, i < PROXIES.length → advanceOutcomeB (env.proxy root i) = true) →
      v2Init env root = Except.error "All proxies failed.") ∧
    (∀ (env : Env) (root : String) (fuel : Nat),
      (∀ i, i < PROXIES.length → advanceOutcomeB (env.proxy root i) = true) →
      ∃ r, v1Run env root (fuel + 1) = some r ∧ r.failedUrls = [root] ∧
        r.networkLog = [⟨root, 0, "Download Failed", "unknown", "Initial Request", 0, true⟩]) := by
  constructor
  · intro env root h
    have hf : cachedFetch env root = Except.error "All proxies failed." :=
      fetchWithProxy_exhaust env root h
    rw [v2Init, hf]
  · intro env root fuel h
    exact ⟨_, v1Run_root_fail env root fuel h, rfl, rfl⟩

/-- Witness for the amended C1 at a concrete input: connection-dead proxies
make the V2 engine reject with the exhaustion error. -/
theorem claim_C1_witness :
    v2Init envAllConnFail "https://r.io/" = Except.error "All proxies failed." :=
  claim_C1_root_failure.1 envAllConnFail "https://r.io/" (fun _ _ => rfl)

/-- Claim C2: in both engines every distinct URL enters the processed set at
most once (at first discovery, root included) and is handed to the transport
at most once per pass — the processed list and the ghost fetch history of
any completed V1 run, and of any state the V2 event loop can reach from a
successful setup, are duplicate-free. -/
theorem claim_C2_dedup :
    (∀ (env : Env) (root : String) (fuel : Nat) (r : V1State),
      v1Run env root fuel = some r → r.fetches.Nodup ∧ r.processed.Nodup) ∧
    (∀ (env : Env) (root : String) (s0 s : V2State),
      v2Init env root = Except.ok s0 → V2Reach env s0 s →
      s.fetches.Nodup ∧ s.processed.Nodup) := by
  constructor
  · intro env root fuel r h
    exact v1Run_nodup env root fuel r h
  · intro env root s0 s h0 hr
    obtain ⟨h1, h2, _, _, _, _⟩ := v2Reach_inv env hr (v2Init_inv env root s0 h0)
    exact ⟨List.Nodup.of_append_left h2, h1⟩

/-- Witness for C2 at a concrete input. -/
theorem claim_C2_witness : c2wState.fetches.Nodup ∧ c2wState.processed.Nodup :=
  claim_C2_dedup.1 envC8 "https://x.com/" 2 c2wState rfl

/-- Claim C6 counterexample: for a root URL that the `URL` constructor
rejects (`notaurl`) whose proxied fetch nevertheless succeeds, the V1 engine
pushes a success-shaped entry and then, when `new URL(currentUrl)` throws,
the catch block pushes a second `Download Failed` entry for the same URL —
two log entries for one URL within one pass. -/
theorem claim_C6_counterexample :
    (v1Run envC8 "notaurl" 1).map (fun r => r.networkLog.map LogEntry.url) =
      some ["notaurl", "notaurl"] ∧
    ¬ (["notaurl", "notaurl"] : List String).Nodup :=
  ⟨rfl, by decide⟩

/-- Claim C6 (amended): within one discovery pass the network log has at
most one entry per distinct URL — in V1 provided every processed URL (the
root, and all extractor-discovered URLs) is a parseable absolute URL; in V2
unconditionally for every reachable state (HTTP-error statuses included,
which mutate the existing placeholder in place).  For a V1 pass whose root
does not parse but whose proxied fetch succeeds, the invariant fails (see
the counterexample). -/
theorem claim_C6_log_unique :
    (∀ (env : Env) (root : String) (fuel : Nat) (r : V1State),
      EnvWF env → (urlParse root).isSome = true → v1Run env root fuel = some r →
      (r.networkLog.map LogEntry.url).Nodup) ∧
    (∀ (env : Env) (root : String) (s0 s : V2State),
      v2Init env root = Except.ok s0 → V2Reach env s0 s →
      (s.networkLog.map LogEntry.url).Nodup) := by
  constructor
  · intro env root fuel r hWF hroot h
    exact v1Run_log_nodup env root fuel r hWF hroot h
  · intro env root s0 s h0 hr
    exact (v2Reach_inv env hr (v2Init_inv env root s0 h0)).2.2.2.2.1

/-- Witness for the amended C6 at a concrete input. -/
theorem claim_C6_witness : (c6wState.networkLog.map LogEntry.url).Nodup :=
  claim_C6_log_unique.1 envC8 "https://x.com/" 2 c6wState
    (fun _ _ _ u hu => absurd hu (List.not_mem_nil u)) rfl rfl

/-- Claim C3 counterexample: a reachable V2 trace resolves while a completed
fetch is still being parsed — the snapshot at resolution carries a suspended
handler whose pending resource (`c.js`) was never enqueued, and `c.js` is
not in the processed set of the resolved state. -/
theorem claim_C3_counterexample :
    v2Init envC3 "https://r.io/" = Except.ok c3s0 ∧
    V2Reach envC3 c3s0 c3s2 ∧
    c3s2.resolved = some c3snap ∧
    c3snap.suspendedAtResolve = [⟨"https://r.io/a.js", ["https://r.io/c.js"]⟩] ∧
    "https://r.io/c.js" ∉ c3s2.processed := by
  refine ⟨rfl, ?_, rfl, by decide, by decide⟩
  exact Relation.ReflTransGen.head
    (V2Step.deliver c3s0 "https://r.io/a.js" (by decide) rfl)
    (Relation.ReflTransGen.single
      (V2Step.deliver c3s1 "https://r.io/b.png" (by decide) rfl))

/-- Claim C3 (amended): the V2 completion join guarantees exactly that the
crawl never resolves while the queue is non-empty or while any worker fetch
is outstanding (`activeWorkers > 0`): every resolution — during setup or in
any event-loop step — happens at an empty queue with zero outstanding
fetches.  It does NOT wait for message handlers that are still parsing a
received response: the crawl can resolve before such a handler's discovered
URLs are enqueued (see the counterexample). -/
theorem claim_C3_completion_join :
    (∀ (env : Env) (root : String) (s0 : V2State) (snap : V2Snapshot),
      v2Init env root = Except.ok s0 → s0.resolved = some snap →
      snap.queueAtResolve = [] ∧ snap.activeAtResolve = 0) ∧
    (∀ (env : Env) (s s' : V2State) (snap : V2Snapshot),
      V2Step env s s' → s.resolved = none → s'.resolved = some snap →
      snap.queueAtResolve = [] ∧ snap.activeAtResolve = 0) := by
  constructor
  · intro env root s0 snap h h1
    exact v2Init_resolveOK env root s0 snap h h1
  · intro env s s' snap hstep h0 h1
    exact v2Step_resolveOK env hstep h0 h1

/-- Witness for the amended C3 at a concrete input: the premature resolution
of the race trace still satisfies the two-condition join. -/
theorem claim_C3_witness :
    c3snap.queueAtResolve = [] ∧ c3snap.activeAtResolve = 0 :=
  claim_C3_completion_join.2 envC3 c3s1 c3s2 c3snap
    (V2Step.deliver c3s1 "https://r.io/b.png" (by decide) rfl) rfl rfl

